import Mathlib

/-!
Verification of the extract–clean–consolidate–derive pipeline of the
Airflow_Finance_Pipeline repository (src/src/transformer.py,
src/src/extractor.py, src/src/utils.py).

Shallow embedding conventions:
* A pandas `DataFrame` is a header (column name, dtype) list plus a list of
  rows; each row is an association list from column name to cell value, in
  header order for well-formed frames.
* Cell values are `Value`: a missing value (`vNull`, pandas `NaN`/`None`),
  a number (`vNum`, rationals standing for Python floats), or a string.
* Calendar-day strings produced by `strftime('%Y-%m-%d')` are modelled by
  their day number as an integer: the formatting is injective on calendar
  days, so equality and distinctness of the strings coincide with equality
  and distinctness of the day numbers.
* `round(x, nd)` / `Series.round(nd)` is modelled by `round_to`, rounding to
  the nearest multiple of `10^-nd` (ties away from the half are irrelevant
  here: no claim below depends on the tie-breaking direction).
* Fallible Python code (KeyError on a missing column, TypeError/ValueError
  from arithmetic or `float()` on strings) is modelled with `Except String`.
  Multiplying a string cell is modelled as a raised error; the repository's
  data flow never multiplies strings, and no claim below exercises that
  corner.
* `random.uniform` draws are modelled by caller-supplied jitter functions,
  one independent value per loop iteration (keyed by the date and the
  currency key of the iteration; the iterated dict keys are unique in
  Python, so this keying is one-to-one with the iterations).
-/

namespace ETL

/-- A pandas cell value: missing (NaN/None), numeric, or string. -/
inductive Value where
  | vNull : Value
  | vNum : ℚ → Value
  | vStr : String → Value
deriving DecidableEq

/-- The dtype of a pandas column, as far as `select_dtypes` in
`limpiar_dataframe` cares: `float64`/`int64` columns, `object` (text)
columns, and anything else. -/
inductive Dtype where
  | numeric : Dtype
  | text : Dtype
  | other : Dtype
deriving DecidableEq

/-- One row of a DataFrame: column name ↦ cell value, in column order. -/
abbrev Row : Type := List (String × Value)

/-- A pandas DataFrame: column headers with dtypes, and the rows. -/
structure DataFrame where
  cols : List (String × Dtype)
  rows : List Row
deriving DecidableEq

/-- The empty DataFrame (`pd.DataFrame([])`): no columns, no rows. -/
def dfEmpty : DataFrame := { cols := [], rows := [] }

/-- Column names of a DataFrame, in order (`df.columns`). -/
def colNames (df : DataFrame) : List String := df.cols.map Prod.fst

/-- First-match lookup in an association list (a row or a header). -/
def alookup {β : Type} : List (String × β) → String → Option β
  | [], _ => none
  | e :: r, n => if e.1 = n then some e.2 else alookup r n

/-- Cell of a row at a column name (first match). -/
def rlookup (r : Row) (n : String) : Option Value := alookup r n

/-- Column assignment on one row (`df[n] = v`, restricted to this row):
replace every entry named `n`, or append a new entry at the end. -/
def rowSet (r : Row) (n : String) (v : Value) : Row :=
  if r.any (fun e => e.1 = n) then
    r.map (fun e => if e.1 = n then (n, v) else e)
  else r ++ [(n, v)]

/-- Column assignment on the header: replace the dtype of every column
named `n`, or append the new column at the end. -/
def colsSet (cs : List (String × Dtype)) (n : String) (dt : Dtype) :
    List (String × Dtype) :=
  if cs.any (fun c => c.1 = n) then
    cs.map (fun c => if c.1 = n then (n, dt) else c)
  else cs ++ [(n, dt)]

/-- Row-dependent column assignment (`df[n] = <series computed per row>`). -/
def setColWith (df : DataFrame) (n : String) (dt : Dtype) (f : Row → Value) :
    DataFrame :=
  { cols := colsSet df.cols n dt,
    rows := df.rows.map (fun r => rowSet r n (f r)) }

/-- Scalar column assignment (`df[n] = v`). -/
def setColScalar (df : DataFrame) (n : String) (dt : Dtype) (v : Value) :
    DataFrame :=
  setColWith df n dt (fun _ => v)

/-- Restriction of one row to a list of column names, in that order
(`df[names]`, per row; on a duplicated label the first column is taken). -/
def selectRow (r : Row) (ns : List String) : Row :=
  ns.filterMap (fun n => (rlookup r n).map (fun v => (n, v)))

/-- Column selection / reordering (`df[names]`). -/
def selectCols (df : DataFrame) (ns : List String) : DataFrame :=
  { cols := ns.filterMap (fun n => (alookup df.cols n).map (fun dt => (n, dt))),
    rows := df.rows.map (fun r => selectRow r ns) }

/-- Duplicate-row removal keeping the first occurrence
(`df.drop_duplicates()`; pandas treats two NaN cells as equal here, as does
`Value` equality). -/
def dedupFirst {α : Type} [DecidableEq α] : List α → List α
  | [] => []
  | x :: xs => x :: (dedupFirst xs).filter (fun y => y ≠ x)

/-- Null fill for one cell, by the dtype of its column: numeric columns get
`0`, object (text) columns get `"N/A"`, other dtypes are left alone
(`fillna` in `limpiar_dataframe`). -/
def fillEntry (cols : List (String × Dtype)) (e : String × Value) :
    String × Value :=
  match e.2 with
  | .vNull =>
    match alookup cols e.1 with
    | some .numeric => (e.1, .vNum 0)
    | some .text => (e.1, .vStr "N/A")
    | _ => e
  | _ => e

/-- `limpiar_dataframe` (transformer.py:14): drop exact duplicate rows, drop
rows whose every value is missing, then fill remaining missing values with
`0` in numeric columns and `"N/A"` in text columns. -/
def limpiar_dataframe (df : DataFrame) : DataFrame :=
  let r1 := dedupFirst df.rows
  let r2 := r1.filter (fun r => ¬ (r.all (fun e => e.2 = Value.vNull)))
  { cols := df.cols, rows := r2.map (fun r => r.map (fillEntry df.cols)) }

/-- Rounding to `nd` decimal places (`round(x, nd)` / `Series.round(nd)`),
to the nearest multiple of `10^-nd`. -/
def round_to (nd : ℕ) (q : ℚ) : ℚ :=
  ((round (q * (10 : ℚ) ^ nd) : ℤ) : ℚ) / (10 : ℚ) ^ nd

/-- Element-wise multiplication of two cells. Missing values propagate as in
pandas (`x * NaN = NaN`); a string operand is modelled as a raised
`TypeError` (`none`). -/
def mulCell : Value → Value → Option Value
  | .vNum a, .vNum b => some (.vNum (a * b))
  | .vNum _, .vNull => some .vNull
  | .vNull, .vNum _ => some .vNull
  | .vNull, .vNull => some .vNull
  | _, _ => none

/-- `Series.round(nd)` on one cell: numbers are rounded, missing values stay
missing. -/
def roundCell (nd : ℕ) : Value → Value
  | .vNum q => .vNum (round_to nd q)
  | v => v

/-- The suffixing `pd.merge` applies to a column name: non-key names that
appear on both sides of the merge get the side's suffix appended. -/
def sufijo (L R : DataFrame) (key suf n : String) : String :=
  if n ≠ key ∧ n ∈ colNames L ∧ n ∈ colNames R then n ++ suf else n

/-- Left merge on a single key column (`pd.merge(L, R, on=key, how='left',
suffixes=(sufL, sufR))`): left rows in order; each left row is repeated once
per matching right row (or once with nulls when nothing matches); non-key
columns appearing on both sides are suffixed. -/
def mergeLeft (L R : DataFrame) (key : String) (sufL sufR : String) :
    DataFrame :=
  let rightCols := R.cols.filter (fun c => c.1 ≠ key)
  { cols := L.cols.map (fun c => (sufijo L R key sufL c.1, c.2)) ++
      rightCols.map (fun c => (sufijo L R key sufR c.1, c.2)),
    rows := L.rows.flatMap (fun l =>
      let hits := R.rows.filter (fun rr => rlookup rr key = rlookup l key)
      let lPart := l.map (fun e => (sufijo L R key sufL e.1, e.2))
      if hits.isEmpty then
        [lPart ++ rightCols.map
          (fun c => (sufijo L R key sufR c.1, Value.vNull))]
      else
        hits.map (fun m =>
          lPart ++ (m.filter (fun e => e.1 ≠ key)).map
            (fun e => (sufijo L R key sufR e.1, e.2)))) }

/-- Effectful map over a list of optional results (`none` aborts), used to
model an elementwise pandas operation that can raise. -/
def mapOpt {α β : Type} (f : α → Option β) : List α → Option (List β)
  | [] => some []
  | x :: xs =>
    match f x, mapOpt f xs with
    | some y, some ys => some (y :: ys)
    | _, _ => none

/-- `calcular_precio_local` (transformer.py:56): if the price column or the
exchange-rate column is absent, return the table unchanged; otherwise set
`precio_local` to the 2-decimal rounding of price × rate and tag every row
with `moneda_local`. A string operand in the product is a `TypeError`. -/
def calcular_precio_local (df : DataFrame) (moneda_local : String)
    (columna_precio columna_tipo_cambio : String) : Except String DataFrame :=
  if columna_precio ∉ colNames df then .ok df
  else if columna_tipo_cambio ∉ colNames df then .ok df
  else
    match mapOpt (fun r =>
        (mulCell ((rlookup r columna_precio).getD .vNull)
            ((rlookup r columna_tipo_cambio).getD .vNull)).map
          (fun v => rowSet r "precio_local" (roundCell 2 v))) df.rows with
    | none => .error "TypeError: non-numeric operand in price column"
    | some rows2 =>
      .ok { cols := colsSet (colsSet df.cols "precio_local" .numeric)
              "moneda_local" .text,
            rows := rows2.map (fun r =>
              rowSet r "moneda_local" (.vStr moneda_local)) }

/-- The fallback exchange-rate table synthesized in `consolidar_datos`
(transformer.py:160) when no rate row matches the requested currency: one
row `{fecha: today, moneda_origen: USD, moneda_destino: m, tipo_cambio: 1.0}`. -/
def fallbackTipoCambio (m : String) (today : ℚ) : DataFrame :=
  { cols := [("fecha", .text), ("moneda_origen", .text),
      ("moneda_destino", .text), ("tipo_cambio", .numeric)],
    rows := [[("fecha", .vNum today), ("moneda_origen", .vStr "USD"),
      ("moneda_destino", .vStr m), ("tipo_cambio", .vNum 1)]] }

/-- Step 2 of `consolidar_datos` (transformer.py:153): keep the rate rows
whose `moneda_destino` equals the requested currency, substituting the
fallback table when none match. -/
def filtrar_tipo_cambio (dftc : DataFrame) (m : String) (today : ℚ) :
    DataFrame :=
  let filtered : DataFrame :=
    { cols := dftc.cols,
      rows := dftc.rows.filter
        (fun r => rlookup r "moneda_destino" = some (.vStr m)) }
  if filtered.rows.isEmpty then fallbackTipoCambio m today else filtered

/-- The log line `df_tipo_cambio_local['tipo_cambio'].values[0]:.2f`
(transformer.py:167) raises `ValueError` when the first rate value is a
string (the `.2f` format spec rejects `str`). -/
def primeraTasaEsTexto (tcl : DataFrame) : Bool :=
  match tcl.rows.head? with
  | none => false
  | some r =>
    match rlookup r "tipo_cambio" with
    | some (.vStr _) => true
    | _ => false

/-- The fixed preferred column ordering of step 8 of `consolidar_datos`
(transformer.py:207). -/
def columnasPrincipales : List String :=
  ["producto_id", "nombre", "categoria", "precio_usd", "tipo_cambio",
   "precio_local", "moneda_local", "fecha", "fecha_procesamiento"]

/-- The column selection of step 8: preferred names first, then the
remaining columns in their existing order; absent names are skipped. -/
def columnasDisponibles (df : DataFrame) : List String :=
  (columnasPrincipales ++
      (colNames df).filter (fun c => c ∉ columnasPrincipales)).filter
    (fun c => c ∈ colNames df)

/-- Step 8 of `consolidar_datos` (transformer.py:207): reorder the columns
into the preferred ordering. -/
def reordenar_columnas (df : DataFrame) : DataFrame :=
  selectCols df (columnasDisponibles df)

/-- A DataFrame representation is well-formed when every row's entry names
are exactly the header's column names, in order — true of every value
representing an actual pandas frame. -/
def DataFrame.WF (df : DataFrame) : Prop :=
  ∀ r ∈ df.rows, r.map Prod.fst = colNames df

/-- Step 3 of `consolidar_datos` (transformer.py:170): the cleaned product
table, stamped with today's date when it has no `fecha` column. -/
def productosConFecha (dfP : DataFrame) (today : ℚ) : DataFrame :=
  let dfp := limpiar_dataframe dfP
  if "fecha" ∈ colNames dfp then dfp
  else setColScalar dfp "fecha" .text (.vNum today)

/-- Step 4 of `consolidar_datos` (transformer.py:175): left-join the
(date-stamped, cleaned) products with the `fecha`/`tipo_cambio` columns of
the filtered rate table, on `fecha`. -/
def mergeUno (dfP dfTC : DataFrame) (m : String) (today : ℚ) : DataFrame :=
  mergeLeft (productosConFecha dfP today)
    (selectCols (filtrar_tipo_cambio (limpiar_dataframe dfTC) m today)
      ["fecha", "tipo_cambio"])
    "fecha" "_x" "_y"

/-- Step 5 of `consolidar_datos` (transformer.py:186): left-join the result
with the cleaned supplemental table on `producto_id`, suffixing colliding
supplemental columns with `_adicional`. -/
def mergeDos (dfP dfTC dfA : DataFrame) (m : String) (today : ℚ) :
    DataFrame :=
  mergeLeft (mergeUno dfP dfTC m today) (limpiar_dataframe dfA)
    "producto_id" "" "_adicional"

/-- Step 7 of `consolidar_datos` (transformer.py:203): stamp
`fecha_procesamiento` and the fixed `pipeline_version` on every row. -/
def metadatos (df : DataFrame) (ts : String) : DataFrame :=
  setColScalar
    (setColScalar df "fecha_procesamiento" .text (.vStr ts))
    "pipeline_version" .text (.vStr "1.0")

/-- `consolidar_datos` (transformer.py:115): clean the three tables, filter
the rates to the local currency (with the 1.0 fallback), stamp a `fecha`
on products if absent, left-join products with the filtered rates on
`fecha`, left-join the result with the supplemental table on `producto_id`
(suffix `_adicional`), derive the local price, stamp processing metadata,
and reorder the columns. `today` is the `datetime.now()` calendar day,
`ts` the `fecha_procesamiento` timestamp string. The `.error` branches
mirror where the Python raises (KeyError on a missing column, ValueError
formatting a string rate in the step-2 log line). -/
def consolidar_datos (dfP dfTC dfA : DataFrame) (moneda_local : String)
    (today : ℚ) (ts : String) : Except String DataFrame :=
  let dftc := limpiar_dataframe dfTC
  if "moneda_destino" ∉ colNames dftc then
    .error "KeyError: moneda_destino"
  else
    let tcl := filtrar_tipo_cambio dftc moneda_local today
    if "tipo_cambio" ∉ colNames tcl then .error "KeyError: tipo_cambio"
    else if primeraTasaEsTexto tcl then .error "ValueError: format"
    else if "fecha" ∉ colNames tcl then .error "KeyError: fecha"
    else
      let m1 := mergeUno dfP dfTC moneda_local today
      if "producto_id" ∉ colNames m1 then .error "KeyError: producto_id"
      else if "producto_id" ∉ colNames (limpiar_dataframe dfA) then
        .error "KeyError: producto_id"
      else
        match calcular_precio_local (mergeDos dfP dfTC dfA moneda_local today)
            moneda_local "precio_usd" "tipo_cambio" with
        | .error e => .error e
        | .ok dfc => .ok (reordenar_columnas (metadatos dfc ts))

/-- `generar_fechas_historicas` (extractor.py:16): the `dias_atras` calendar
days counting back from today, newest first. `range` over a non-positive
count is empty, exactly as in Python. Days are day numbers (see the header
comment on date strings). -/
def generar_fechas_historicas (today : ℤ) (dias_atras : ℤ) : List ℤ :=
  (List.range dias_atras.toNat).map (fun (i : ℕ) => today - (i : ℤ))

/-- `validar_dataframe_basico` (utils.py:82): `ValueError(f"{nombre} está
vacío")` when the table is `None` or has zero rows, `True` otherwise. -/
def validar_dataframe_basico (df? : Option DataFrame) (nombre : String) :
    Except String Bool :=
  match df? with
  | none => .error (nombre ++ " está vacío")
  | some df =>
    if df.rows.length = 0 then .error (nombre ++ " está vacío")
    else .ok true

/-- The guarded rate inversion in `extraer_api_productos` (extractor.py:80):
`1 / tasa if tasa > 0 else 0`. -/
def precio_base (tasa : ℚ) : ℚ := if 0 < tasa then 1 / tasa else 0

/-- One product record built by `extraer_api_productos` (extractor.py:83)
for currency `p.1` with rate `p.2` on day `fecha`, with the iteration's
`random.uniform(0.95, 1.05)` draw `variacion`. -/
def prodRow (variacion : ℚ) (fecha : ℤ) (p : String × ℚ) : Row :=
  [("producto_id", .vStr ("CURR_" ++ p.1)),
   ("nombre", .vStr ("Moneda " ++ p.1)),
   ("precio_usd", .vNum (round_to 4 (precio_base p.2 * variacion))),
   ("categoria", .vStr "Forex"),
   ("fecha", .vNum fecha)]

/-- The header of the product table (dtypes as pandas infers them from the
records: strings are `object`, prices `float64`, dates `object`). -/
def prodCols : List (String × Dtype) :=
  [("producto_id", .text), ("nombre", .text), ("precio_usd", .numeric),
   ("categoria", .text), ("fecha", .text)]

/-- The product record list built by `extraer_api_productos`
(extractor.py:73): one row per fetched rate per historical day, none at all
when the payload has no `rates` key. `rates?` is the decoded feed's `rates`
dict as an association list (`none` when the key is absent); `jit` supplies
the per-iteration uniform draw. -/
def productosDe (rates? : Option (List (String × ℚ)))
    (jit : ℤ → String → ℚ) (today : ℤ) (dias_historico : ℤ) : List Row :=
  match rates? with
  | some rs => (generar_fechas_historicas today dias_historico).flatMap
      (fun f => rs.map (fun p => prodRow (jit f p.1) f p))
  | none => []

/-- `extraer_api_productos` (extractor.py:40): build the product records,
then run the non-emptiness validation and return the table. -/
def extraer_api_productos (rates? : Option (List (String × ℚ)))
    (jit : ℤ → String → ℚ) (today : ℤ) (dias_historico : ℤ) :
    Except String DataFrame :=
  let productos := productosDe rates? jit today dias_historico
  let df : DataFrame :=
    { cols := if productos.isEmpty then [] else prodCols, rows := productos }
  match validar_dataframe_basico (some df) "Productos" with
  | .error e => .error e
  | .ok _ => .ok df

/-- One exchange-rate record built by `extraer_api_tipos_cambio`
(extractor.py:151) for currency `p.1` with rate `p.2` on day `fecha`, with
the iteration's `random.uniform(0.98, 1.02)` draw `variacion`. -/
def tcRow (monedaBase : String) (variacion : ℚ) (fecha : ℤ) (p : String × ℚ) :
    Row :=
  [("fecha", .vNum fecha),
   ("moneda_origen", .vStr monedaBase),
   ("moneda_destino", .vStr p.1),
   ("tipo_cambio", .vNum (round_to 4 (p.2 * variacion)))]

/-- The header of the exchange-rate table. -/
def tcCols : List (String × Dtype) :=
  [("fecha", .text), ("moneda_origen", .text), ("moneda_destino", .text),
   ("tipo_cambio", .numeric)]

/-- The exchange-rate record list built by `extraer_api_tipos_cambio`
(extractor.py:143): `data.get('rates', {})` never raises, so an absent
`rates` key yields zero records; otherwise one record per rate per
historical day. -/
def tiposDe (rates? : Option (List (String × ℚ))) (monedaBase : String)
    (jit : ℤ → String → ℚ) (today : ℤ) (dias_historico : ℤ) : List Row :=
  (generar_fechas_historicas today dias_historico).flatMap
    (fun f => (rates?.getD []).map (fun p => tcRow monedaBase (jit f p.1) f p))

/-- `extraer_api_tipos_cambio` (extractor.py:111): build the rate records,
then run the non-emptiness validation and return the table. -/
def extraer_api_tipos_cambio (rates? : Option (List (String × ℚ)))
    (monedaBase : String) (jit : ℤ → String → ℚ) (today : ℤ)
    (dias_historico : ℤ) : Except String DataFrame :=
  let tipos := tiposDe rates? monedaBase jit today dias_historico
  let df : DataFrame :=
    { cols := if tipos.isEmpty then [] else tcCols, rows := tipos }
  match validar_dataframe_basico (some df) "Tipos de Cambio" with
  | .error e => .error e
  | .ok _ => .ok df

/-- One supplemental record built by `extraer_api_datos_adicionales`
(extractor.py:212) for crypto `p.1` with rate `p.2` on day `fecha`;
`variacion` is the iteration's `random.uniform(0.8, 1.2)` draw and `rat`
the iteration's `random.choice(['A', 'A+', 'A-', 'B+'])` draw. -/
def adicRow (variacion : ℚ) (rat : String) (fecha : ℤ) (p : String × ℚ) :
    Row :=
  [("producto_id", .vStr ("CRYPTO_" ++ p.1)),
   ("rating", .vStr rat),
   ("volumen", .vNum (round_to 2 (p.2 * 1000000 * variacion))),
   ("fecha", .vNum fecha)]

/-- The header of the supplemental table. -/
def adicCols : List (String × Dtype) :=
  [("producto_id", .text), ("rating", .text), ("volumen", .numeric),
   ("fecha", .text)]

/-- The supplemental record list built by `extraer_api_datos_adicionales`
(extractor.py:202): no records at all when the payload lacks the
`data.rates` path; otherwise the first 10 fetched entities replicated
across the historical days. -/
def adicionalesDe (rates? : Option (List (String × ℚ)))
    (jit : ℤ → String → ℚ) (ratPick : ℤ → String → String) (today : ℤ)
    (dias_historico : ℤ) : List Row :=
  match rates? with
  | some rs => (generar_fechas_historicas today dias_historico).flatMap
      (fun f =>
        (rs.take 10).map (fun p => adicRow (jit f p.1) (ratPick f p.1) f p))
  | none => []

/-- `extraer_api_datos_adicionales` (extractor.py:175): build the
supplemental records, then run the non-emptiness validation and return the
table. -/
def extraer_api_datos_adicionales (rates? : Option (List (String × ℚ)))
    (jit : ℤ → String → ℚ) (ratPick : ℤ → String → String) (today : ℤ)
    (dias_historico : ℤ) : Except String DataFrame :=
  let adicionales := adicionalesDe rates? jit ratPick today dias_historico
  let df : DataFrame :=
    { cols := if adicionales.isEmpty then [] else adicCols,
      rows := adicionales }
  match validar_dataframe_basico (some df) "Datos Adicionales" with
  | .error e => .error e
  | .ok _ => .ok df

/-- Minimum of a list of rationals (`Series.min` over the non-null cells;
`none` models the NaN result on an empty series). -/
def qmin : List ℚ → Option ℚ
  | [] => none
  | x :: xs => match qmin xs with
    | none => some x
    | some m => some (min x m)

/-- Maximum of a list of rationals (`Series.max` over the non-null cells). -/
def qmax : List ℚ → Option ℚ
  | [] => none
  | x :: xs => match qmax xs with
    | none => some x
    | some m => some (max x m)

/-- Mean of a list of rationals (`Series.mean`; NaN cells are skipped by
pandas, so the divisor is the count of present values). -/
def meanQ (l : List ℚ) : Option ℚ :=
  if l.isEmpty then none else some (l.sum / l.length)

/-- Insertion into a sorted list, for the median. -/
def insSorted (x : ℚ) : List ℚ → List ℚ
  | [] => [x]
  | y :: ys => if x ≤ y then x :: y :: ys else y :: insSorted x ys

/-- Insertion sort, for the median. -/
def sortQ : List ℚ → List ℚ
  | [] => []
  | x :: xs => insSorted x (sortQ xs)

/-- Median of a list of rationals (`Series.median`: middle of the sorted
present values, mean of the two middles on an even count, NaN on empty). -/
def medianQ (l : List ℚ) : Option ℚ :=
  let s := sortQ l
  let n := s.length
  if n = 0 then none
  else if n % 2 = 1 then s.get? (n / 2)
  else
    match s.get? (n / 2 - 1), s.get? (n / 2) with
    | some a, some b => some ((a + b) / 2)
    | _, _ => none

/-- The cells of a column, one per row; a missing entry reads as NaN. -/
def colCells (df : DataFrame) (c : String) : List Value :=
  df.rows.map (fun r => (rlookup r c).getD .vNull)

/-- The `min/max/promedio/mediana` block `generar_resumen_estadistico`
computes for one price column (transformer.py:264). `none` fields model the
NaN statistics of an empty or all-null column. -/
structure Stats where
  min? : Option ℚ
  max? : Option ℚ
  promedio? : Option ℚ
  mediana? : Option ℚ
deriving DecidableEq

/-- Statistics of one column. `float()` on a string cell is a raised
`ValueError`, modelled as an error when the column holds any string. -/
def colStats (df : DataFrame) (c : String) : Except String Stats :=
  let cells := colCells df c
  if cells.any (fun v => match v with | .vStr _ => true | _ => false) then
    .error "ValueError: could not convert string to float"
  else
    let nums := cells.filterMap
      (fun v => match v with | .vNum q => some q | _ => none)
    .ok { min? := qmin nums, max? := qmax nums, promedio? := meanQ nums,
          mediana? := medianQ nums }

/-- `value_counts().to_dict()` on one column (transformer.py:281): each
distinct non-null value with its number of occurrences. -/
def value_counts (df : DataFrame) (c : String) : List (Value × ℕ) :=
  let vs := (colCells df c).filter (fun v => v ≠ Value.vNull)
  (dedupFirst vs).map (fun v => (v, vs.count v))

/-- The summary dictionary built by `generar_resumen_estadistico`: the four
unconditional keys, and the three conditional blocks as `Option`s (`none`
models the key being absent from the dictionary). -/
structure Resumen where
  total_registros : ℕ
  total_columnas : ℕ
  columnas : List String
  fecha_procesamiento : String
  precio_usd? : Option Stats
  precio_local? : Option Stats
  por_categoria? : Option (List (Value × ℕ))
deriving DecidableEq

/-- `generar_resumen_estadistico` (transformer.py:239): row/column counts,
column list and timestamp always; the `precio_usd` and `precio_local`
statistics blocks when those columns exist; the `por_categoria` counts when
`categoria` exists. -/
def generar_resumen_estadistico (df : DataFrame) (ts : String) :
    Except String Resumen :=
  let pu? : Except String (Option Stats) :=
    if "precio_usd" ∈ colNames df then
      match colStats df "precio_usd" with
      | .error e => .error e
      | .ok s => .ok (some s)
    else .ok none
  match pu? with
  | .error e => .error e
  | .ok pu =>
    let pl? : Except String (Option Stats) :=
      if "precio_local" ∈ colNames df then
        match colStats df "precio_local" with
        | .error e => .error e
        | .ok s => .ok (some s)
      else .ok none
    match pl? with
    | .error e => .error e
    | .ok pl =>
      .ok { total_registros := df.rows.length,
            total_columnas := df.cols.length,
            columnas := colNames df, fecha_procesamiento := ts,
            precio_usd? := pu, precio_local? := pl,
            por_categoria? :=
              if "categoria" ∈ colNames df then
                some (value_counts df "categoria")
              else none }

/-! ### Association-list and row lemmas -/

theorem alookup_eq_none {β : Type} {l : List (String × β)} {n : String} :
    alookup l n = none ↔ ∀ e ∈ l, e.1 ≠ n := by
  induction l with
  | nil => simp [alookup]
  | cons e r ih =>
    by_cases h : e.1 = n <;> simp [alookup, h, ih]

theorem alookup_append {β : Type} (l1 l2 : List (String × β)) (n : String) :
    alookup (l1 ++ l2) n = (alookup l1 n).or (alookup l2 n) := by
  induction l1 with
  | nil => simp [alookup]
  | cons e r ih =>
    by_cases h : e.1 = n <;> simp [alookup, h, ih]

theorem alookup_isSome {β : Type} {l : List (String × β)} {n : String} :
    (alookup l n).isSome = true ↔ n ∈ l.map Prod.fst := by
  induction l with
  | nil => simp [alookup]
  | cons e r ih =>
    by_cases h : e.1 = n
    · simp [alookup, h]
    · simp only [alookup, if_neg h, List.map_cons, List.mem_cons, ih]
      constructor
      · exact Or.inr
      · rintro (rfl | hm)
        · exact (h rfl).elim
        · exact hm

theorem alookup_map_replace_self {r : Row} {n : String} (v : Value)
    (h : ∃ e ∈ r, e.1 = n) :
    alookup (r.map (fun e => if e.1 = n then (n, v) else e)) n = some v := by
  induction r with
  | nil => simp at h
  | cons e0 r0 ih =>
    by_cases h0 : e0.1 = n
    · simp [alookup, h0]
    · simp only [List.map_cons, if_neg h0, alookup, if_neg h0]
      apply ih
      obtain ⟨e, he, hen⟩ := h
      rcases List.mem_cons.mp he with rfl | hm
      · exact (h0 hen).elim
      · exact ⟨e, hm, hen⟩

theorem alookup_map_replace_ne (r : Row) (n n' : String) (v : Value)
    (h : n' ≠ n) :
    alookup (r.map (fun e => if e.1 = n then (n, v) else e)) n' =
      alookup r n' := by
  induction r with
  | nil => simp
  | cons e0 r0 ih =>
    by_cases h0 : e0.1 = n
    · have h1 : e0.1 ≠ n' := fun hc => h ((hc.symm.trans h0).symm ▸ rfl)
      have h2 : ¬ (n = n') := fun hc => h hc.symm
      simp only [List.map_cons, if_pos h0, alookup, if_neg h2,
        if_neg (h0 ▸ h1 : ¬ e0.1 = n'), ih]
    · by_cases h1 : e0.1 = n'
      · simp only [List.map_cons, if_neg h0, alookup, if_pos h1]
      · simp only [List.map_cons, if_neg h0, alookup, if_neg h1, ih]

theorem any_fst_iff {β : Type} {r : List (String × β)} {n : String} :
    (r.any (fun e => e.1 = n)) = true ↔ ∃ e ∈ r, e.1 = n := by
  rw [List.any_eq_true]
  simp

theorem rowSet_lookup_self (r : Row) (n : String) (v : Value) :
    rlookup (rowSet r n v) n = some v := by
  unfold rowSet rlookup
  by_cases h : (r.any (fun e => e.1 = n)) = true
  · rw [if_pos h]
    exact alookup_map_replace_self v (any_fst_iff.mp h)
  · rw [if_neg h, alookup_append]
    have hnone : alookup r n = none := by
      rw [alookup_eq_none]
      intro e he hc
      exact h (any_fst_iff.mpr ⟨e, he, hc⟩)
    simp [hnone, alookup]

theorem rowSet_lookup_ne (r : Row) (n n' : String) (v : Value)
    (h : n' ≠ n) : rlookup (rowSet r n v) n' = rlookup r n' := by
  unfold rowSet rlookup
  by_cases ha : (r.any (fun e => e.1 = n)) = true
  · rw [if_pos ha]
    exact alookup_map_replace_ne r n n' v h
  · rw [if_neg ha, alookup_append]
    have h2 : ¬ (n = n') := fun hc => h hc.symm
    cases hl : alookup r n' with
    | some v0 => simp
    | none => simp [alookup, h2, Option.or]

theorem mem_cons_iff_of_ne {n m : String} {ms : List String} (h : ¬ m = n) :
    n ∈ m :: ms ↔ n ∈ ms := by
  constructor
  · intro hc
    rcases List.mem_cons.mp hc with rfl | h2
    · exact (h rfl).elim
    · exact h2
  · exact List.mem_cons_of_mem m

/-- Helper: a list maps to itself when the function fixes each member. -/
theorem map_eq_self_of_mem {α : Type} {f : α → α} :
    ∀ {l : List α}, (∀ x ∈ l, f x = x) → l.map f = l := by
  intro l
  induction l with
  | nil => intro _; rfl
  | cons x xs ih =>
    intro h
    rw [List.map_cons, h x (List.mem_cons_self x xs),
      ih (fun a ha => h a (List.mem_cons_of_mem x ha))]

theorem rlookup_cons (e : String × Value) (r : Row) (n : String) :
    rlookup (e :: r) n = if e.1 = n then some e.2 else rlookup r n := rfl

theorem selectRow_lookup (r : Row) (ns : List String) (n : String) :
    rlookup (selectRow r ns) n = if n ∈ ns then rlookup r n else none := by
  induction ns with
  | nil => simp [selectRow, rlookup, alookup]
  | cons m ms ih =>
    unfold selectRow at ih ⊢
    cases hm : rlookup r m with
    | some v =>
      simp only [List.filterMap_cons, hm, Option.map_some']
      by_cases hmn : m = n
      · subst hmn
        simp only [rlookup_cons, if_pos rfl, List.mem_cons, true_or, if_true]
        exact hm.symm
      · rw [rlookup_cons, if_neg hmn, ih]
        simp only [mem_cons_iff_of_ne hmn]
    | none =>
      simp only [List.filterMap_cons, hm, Option.map_none']
      rw [ih]
      by_cases hmn : m = n
      · subst hmn
        by_cases hmem : m ∈ ms
        · simp [hmem]
        · simp only [if_neg hmem, List.mem_cons, true_or, if_true]
          exact hm.symm
      · simp only [mem_cons_iff_of_ne hmn]

theorem map_fst_replace (cs : List (String × Dtype)) (n : String)
    (dt : Dtype) :
    (cs.map (fun c => if c.1 = n then (n, dt) else c)).map Prod.fst =
      cs.map Prod.fst := by
  induction cs with
  | nil => rfl
  | cons c cs0 ih =>
    by_cases h : c.1 = n
    · simp [h, ih]
    · simp [h, ih]

theorem map_fst_colsSet (cs : List (String × Dtype)) (n : String)
    (dt : Dtype) :
    (colsSet cs n dt).map Prod.fst =
      if (cs.any (fun c => c.1 = n)) = true then cs.map Prod.fst
      else cs.map Prod.fst ++ [n] := by
  unfold colsSet
  by_cases h : (cs.any (fun c => c.1 = n)) = true
  · rw [if_pos h, if_pos h, map_fst_replace]
  · rw [if_neg h, if_neg h]
    simp

theorem mem_map_fst_colsSet (cs : List (String × Dtype)) (n m : String)
    (dt : Dtype) :
    m ∈ (colsSet cs n dt).map Prod.fst ↔ m = n ∨ m ∈ cs.map Prod.fst := by
  rw [map_fst_colsSet]
  by_cases h : (cs.any (fun c => c.1 = n)) = true
  · rw [if_pos h]
    constructor
    · exact Or.inr
    · rintro (rfl | hm)
      · obtain ⟨c, hc, hcn⟩ := any_fst_iff.mp h
        exact hcn ▸ List.mem_map_of_mem Prod.fst hc
      · exact hm
  · rw [if_neg h]
    simp only [List.mem_append, List.mem_singleton]
    exact or_comm

/-! ### Deduplication lemmas -/

theorem mem_dedupFirst {α : Type} [DecidableEq α] {a : α} :
    ∀ {l : List α}, a ∈ dedupFirst l ↔ a ∈ l := by
  intro l
  induction l with
  | nil => simp [dedupFirst]
  | cons x xs ih =>
    rw [dedupFirst]
    simp only [List.mem_cons, List.mem_filter, ih]
    constructor
    · rintro (rfl | ⟨hm, _⟩)
      · exact Or.inl rfl
      · exact Or.inr hm
    · rintro (rfl | hm)
      · exact Or.inl rfl
      · by_cases hx : a = x
        · exact Or.inl hx
        · exact Or.inr ⟨hm, by simp [hx]⟩

theorem nodup_dedupFirst {α : Type} [DecidableEq α] :
    ∀ (l : List α), (dedupFirst l).Nodup := by
  intro l
  induction l with
  | nil => simp [dedupFirst]
  | cons x xs ih =>
    rw [dedupFirst]
    refine List.Nodup.cons ?_ (List.Nodup.filter _ ih)
    intro hmem
    have := List.mem_filter.mp hmem
    simp at this

theorem dedupFirst_of_nodup {α : Type} [DecidableEq α] :
    ∀ {l : List α}, l.Nodup → dedupFirst l = l := by
  intro l
  induction l with
  | nil => intro _; simp [dedupFirst]
  | cons x xs ih =>
    intro hnd
    rw [dedupFirst]
    have hx : x ∉ xs := (List.nodup_cons.mp hnd).1
    have hxs : xs.Nodup := (List.nodup_cons.mp hnd).2
    rw [ih hxs]
    have hfil : xs.filter (fun y => y ≠ x) = xs := by
      apply List.filter_eq_self.mpr
      intro y hy
      show decide (y ≠ x) = true
      rw [decide_eq_true_eq]
      intro hc
      exact hx (hc ▸ hy)
    rw [hfil]

theorem dedupFirst_idem {α : Type} [DecidableEq α] (l : List α) :
    dedupFirst (dedupFirst l) = dedupFirst l :=
  dedupFirst_of_nodup (nodup_dedupFirst l)

/-! ### mapOpt lemmas -/

theorem mapOpt_length {α β : Type} {f : α → Option β} :
    ∀ {l : List α} {out : List β}, mapOpt f l = some out →
      out.length = l.length := by
  intro l
  induction l with
  | nil => intro out h; simp [mapOpt] at h; simp [← h]
  | cons x xs ih =>
    intro out h
    unfold mapOpt at h
    cases hf : f x with
    | none => rw [hf] at h; simp at h
    | some y =>
      rw [hf] at h
      cases hm : mapOpt f xs with
      | none => rw [hm] at h; simp at h
      | some ys =>
        rw [hm] at h
        simp only [Option.some.injEq] at h
        subst h
        simp [ih hm]

theorem mapOpt_mem {α β : Type} {f : α → Option β} :
    ∀ {l : List α} {out : List β}, mapOpt f l = some out →
      ∀ b ∈ out, ∃ a ∈ l, f a = some b := by
  intro l
  induction l with
  | nil =>
    intro out h b hb
    simp [mapOpt] at h
    subst h
    simp at hb
  | cons x xs ih =>
    intro out h b hb
    unfold mapOpt at h
    cases hf : f x with
    | none => rw [hf] at h; simp at h
    | some y =>
      rw [hf] at h
      cases hm : mapOpt f xs with
      | none => rw [hm] at h; simp at h
      | some ys =>
        rw [hm] at h
        simp only [Option.some.injEq] at h
        subst h
        rcases List.mem_cons.mp hb with rfl | hb2
        · exact ⟨x, List.mem_cons_self x xs, hf⟩
        · obtain ⟨a, ha, hfa⟩ := ih hm b hb2
          exact ⟨a, List.mem_cons_of_mem x ha, hfa⟩

/-! ### Merge row-count lemmas -/

theorem length_filter_le_one_of_nodup_map {α β : Type} [DecidableEq β]
    {l : List α} {f : α → β} (h : (l.map f).Nodup) (v : β) :
    (l.filter (fun x => f x = v)).length ≤ 1 := by
  induction l with
  | nil => simp
  | cons x xs ih =>
    simp only [List.map_cons, List.nodup_cons] at h
    by_cases hx : f x = v
    · have hnone : xs.filter (fun x => f x = v) = [] := by
        rw [List.filter_eq_nil_iff]
        intro a ha
        simp only [decide_eq_true_eq]
        intro hc
        have hfx : f x = f a := hx.trans hc.symm
        exact h.1 (hfx ▸ List.mem_map_of_mem f ha)
      simp [List.filter_cons, hx, hnone]
    · simp only [List.filter_cons, hx, decide_false_eq_false]
      simpa using ih h.2

theorem length_flatMap_eq_of_one {α β : Type} {l : List α}
    {f : α → List β} (h : ∀ a ∈ l, (f a).length = 1) :
    (l.flatMap f).length = l.length := by
  induction l with
  | nil => simp
  | cons x xs ih =>
    rw [List.flatMap_cons, List.length_append, List.length_cons,
      h x (List.mem_cons_self x xs),
      ih (fun a ha => h a (List.mem_cons_of_mem x ha))]
    omega

theorem mergeLeft_length {L R : DataFrame} {key sufL sufR : String}
    (h : (R.rows.map (fun rr => rlookup rr key)).Nodup) :
    (mergeLeft L R key sufL sufR).rows.length = L.rows.length := by
  unfold mergeLeft
  simp only
  apply length_flatMap_eq_of_one
  intro l hl
  by_cases hemp :
      (R.rows.filter (fun rr => rlookup rr key = rlookup l key)).isEmpty
  · simp [hemp]
  · simp only [hemp, if_false, Bool.false_eq_true, List.length_map]
    have hle := length_filter_le_one_of_nodup_map h (rlookup l key)
    have hne : (R.rows.filter
        (fun rr => rlookup rr key = rlookup l key)).length ≠ 0 := by
      intro hc
      rw [List.isEmpty_iff, ← List.length_eq_zero] at hemp
      exact hemp hc
    omega

/-! ### Rounding and other arithmetic lemmas -/

theorem round_to_nonneg (nd : ℕ) (q : ℚ) (h : 0 ≤ q) :
    0 ≤ round_to nd q := by
  unfold round_to
  apply div_nonneg _ (by positivity)
  have h1 : (0 : ℚ) ≤ q * (10 : ℚ) ^ nd := by positivity
  have h2 : (0 : ℤ) ≤ round (q * (10 : ℚ) ^ nd) := by
    rw [round_eq]
    apply Int.floor_nonneg.mpr
    linarith
  exact_mod_cast h2

theorem precio_base_nonneg (tasa : ℚ) : 0 ≤ precio_base tasa := by
  unfold precio_base
  by_cases h : 0 < tasa
  · rw [if_pos h]
    positivity
  · rw [if_neg h]

theorem precio_base_of_nonpos {tasa : ℚ} (h : tasa ≤ 0) :
    precio_base tasa = 0 := by
  unfold precio_base
  rw [if_neg (by linarith)]

/-! ### Extractor characterizations -/

theorem extraer_productos_eq (rates? : Option (List (String × ℚ)))
    (jit : ℤ → String → ℚ) (today n : ℤ) :
    extraer_api_productos rates? jit today n =
      if (productosDe rates? jit today n).length = 0 then
        .error "Productos está vacío"
      else
        .ok { cols := if (productosDe rates? jit today n).isEmpty then []
                else prodCols,
              rows := productosDe rates? jit today n } := by
  unfold extraer_api_productos validar_dataframe_basico
  by_cases h : (productosDe rates? jit today n).length = 0
  · simp [h]
  · simp [h]

theorem extraer_tipos_eq (rates? : Option (List (String × ℚ)))
    (monedaBase : String) (jit : ℤ → String → ℚ) (today n : ℤ) :
    extraer_api_tipos_cambio rates? monedaBase jit today n =
      if (tiposDe rates? monedaBase jit today n).length = 0 then
        .error "Tipos de Cambio está vacío"
      else
        .ok { cols := if (tiposDe rates? monedaBase jit today n).isEmpty
                then [] else tcCols,
              rows := tiposDe rates? monedaBase jit today n } := by
  unfold extraer_api_tipos_cambio validar_dataframe_basico
  by_cases h : (tiposDe rates? monedaBase jit today n).length = 0
  · simp [h]
  · simp [h]

theorem extraer_adicionales_eq (rates? : Option (List (String × ℚ)))
    (jit : ℤ → String → ℚ) (ratPick : ℤ → String → String) (today n : ℤ) :
    extraer_api_datos_adicionales rates? jit ratPick today n =
      if (adicionalesDe rates? jit ratPick today n).length = 0 then
        .error "Datos Adicionales está vacío"
      else
        .ok { cols := if (adicionalesDe rates? jit ratPick today n).isEmpty
                then [] else adicCols,
              rows := adicionalesDe rates? jit ratPick today n } := by
  unfold extraer_api_datos_adicionales validar_dataframe_basico
  by_cases h : (adicionalesDe rates? jit ratPick today n).length = 0
  · simp [h]
  · simp [h]

theorem generar_fechas_nonpos {today n : ℤ} (hn : n ≤ 0) :
    generar_fechas_historicas today n = [] := by
  unfold generar_fechas_historicas
  rw [Int.toNat_eq_zero.mpr hn]
  rfl

theorem generar_fechas_one (today : ℤ) :
    generar_fechas_historicas today 1 = [today] := by
  unfold generar_fechas_historicas
  rw [show (1 : ℤ).toNat = 1 from rfl, show List.range 1 = [0] from rfl,
    List.map_cons, List.map_nil, Nat.cast_zero, sub_zero]

theorem validar_none (nombre : String) :
    validar_dataframe_basico none nombre =
      .error (nombre ++ " está vacío") := rfl

theorem validar_some (d : DataFrame) (nombre : String) :
    validar_dataframe_basico (some d) nombre =
      if d.rows.length = 0 then .error (nombre ++ " está vacío")
      else .ok true := rfl

/-- A fixed jitter stream used to instantiate witnesses. -/
def jitUnit : ℤ → String → ℚ := fun _ _ => 1

/-- A fixed rating stream used to instantiate witnesses. -/
def ratUnit : ℤ → String → String := fun _ _ => "A"

theorem extraer_productos_rows {rates? : Option (List (String × ℚ))}
    {jit : ℤ → String → ℚ} {today n : ℤ} {df : DataFrame}
    (hok : extraer_api_productos rates? jit today n = .ok df) :
    df.rows = productosDe rates? jit today n := by
  rw [extraer_productos_eq] at hok
  by_cases hz : (productosDe rates? jit today n).length = 0
  · rw [if_pos hz] at hok
    exact absurd hok (by simp)
  · rw [if_neg hz] at hok
    have := congrArg Except.toOption hok
    simp only [Except.toOption] at this
    injection this with h2
    rw [← h2]

/-- Reading the `fecha` cell of one product record. -/
theorem rlookup_prodRow_fecha (j : ℚ) (f : ℤ) (p : String × ℚ) :
    rlookup (prodRow j f p) "fecha" = some (.vNum (f : ℚ)) := by
  simp [prodRow, rlookup, alookup]

/-- Reading the `producto_id` cell of one product record. -/
theorem rlookup_prodRow_id (j : ℚ) (f : ℤ) (p : String × ℚ) :
    rlookup (prodRow j f p) "producto_id" =
      some (.vStr ("CURR_" ++ p.1)) := by
  simp [prodRow, rlookup, alookup]

theorem generar_fechas_length (today n : ℤ) :
    (generar_fechas_historicas today n).length = n.toNat := by
  unfold generar_fechas_historicas
  rw [List.length_map, List.length_range]

theorem generar_fechas_mem {today n : ℤ} {f : ℤ} :
    f ∈ generar_fechas_historicas today n ↔
      ∃ i : ℕ, i < n.toNat ∧ f = today - (i : ℤ) := by
  unfold generar_fechas_historicas
  simp only [List.mem_map, List.mem_range]
  constructor
  · rintro ⟨i, hi, rfl⟩
    exact ⟨i, hi, rfl⟩
  · rintro ⟨i, hi, rfl⟩
    exact ⟨i, hi, rfl⟩

theorem generar_fechas_nodup (today n : ℤ) :
    (generar_fechas_historicas today n).Nodup := by
  unfold generar_fechas_historicas
  refine List.Nodup.map ?_ (List.nodup_range _)
  intro a b hab
  simp only at hab
  omega

theorem dedupFirst_replicate_append {α : Type} [DecidableEq α] (v : α)
    (rest : List α) :
    ∀ k : ℕ, 0 < k →
      dedupFirst (List.replicate k v ++ rest) =
        v :: (dedupFirst rest).filter (fun y => y ≠ v) := by
  intro k
  induction k with
  | zero => intro h; exact absurd h (by simp)
  | succ k ih =>
    intro _
    by_cases hk : 0 < k
    · rw [List.replicate_succ, List.cons_append, dedupFirst, ih hk]
      congr 1
      rw [List.filter_cons_of_neg (by simp), List.filter_filter]
      congr 1
      funext a
      exact Bool.and_self _
    · have hk0 : k = 0 := by omega
      subst hk0
      simp only [List.replicate_succ, List.replicate_zero,
        List.cons_append, List.nil_append]
      rw [dedupFirst]

theorem dedupFirst_flatMap_replicate {α β : Type} [DecidableEq β]
    (g : α → β) (k : ℕ) (hk : 0 < k) :
    ∀ (l : List α), (l.map g).Nodup →
      dedupFirst (l.flatMap (fun a => List.replicate k (g a))) = l.map g := by
  intro l
  induction l with
  | nil => intro _; simp [dedupFirst]
  | cons v vs ih =>
    intro hnd
    rw [List.map_cons, List.nodup_cons] at hnd
    rw [List.flatMap_cons, dedupFirst_replicate_append _ _ k hk,
      ih hnd.2, List.map_cons]
    congr 1
    apply List.filter_eq_self.mpr
    intro y hy
    show decide (y ≠ g v) = true
    rw [decide_eq_true_eq]
    intro hc
    exact hnd.1 (hc ▸ hy)

theorem flatMap_ite_eq {α β : Type} [DecidableEq α] {l : List α}
    (hnd : l.Nodup) {a : α} (ha : a ∈ l) (h : α → List β) :
    (l.flatMap (fun x => if x = a then h x else [])) = h a := by
  induction l with
  | nil => simp at ha
  | cons x xs ih =>
    rw [List.nodup_cons] at hnd
    rw [List.flatMap_cons]
    by_cases hxa : x = a
    · rw [if_pos hxa]
      have hrest : xs.flatMap (fun y => if y = a then h y else []) = [] := by
        apply List.flatMap_eq_nil_iff.mpr
        intro y hy
        rw [if_neg]
        intro hc
        apply hnd.1
        rw [hxa, ← hc]
        exact hy
      rw [hrest, List.append_nil, hxa]
    · rw [if_neg hxa, List.nil_append]
      rcases List.mem_cons.mp ha with heq | hmem
      · exact absurd heq.symm hxa
      · exact ih hnd.2 hmem

/-! ### Consolidation structure lemmas -/

theorem consolidar_ok {dfP dfTC dfA : DataFrame} {m : String} {today : ℚ}
    {ts : String} {out : DataFrame}
    (hok : consolidar_datos dfP dfTC dfA m today ts = .ok out) :
    ∃ dfc, calcular_precio_local (mergeDos dfP dfTC dfA m today) m
        "precio_usd" "tipo_cambio" = .ok dfc ∧
      out = reordenar_columnas (metadatos dfc ts) := by
  unfold consolidar_datos at hok
  by_cases h1 : "moneda_destino" ∉ colNames (limpiar_dataframe dfTC)
  · rw [if_pos h1] at hok
    exact absurd hok (by simp)
  · rw [if_neg h1] at hok
    by_cases h2 : "tipo_cambio" ∉
        colNames (filtrar_tipo_cambio (limpiar_dataframe dfTC) m today)
    · rw [if_pos h2] at hok
      exact absurd hok (by simp)
    · rw [if_neg h2] at hok
      by_cases h3 : primeraTasaEsTexto
          (filtrar_tipo_cambio (limpiar_dataframe dfTC) m today) = true
      · rw [if_pos h3] at hok
        exact absurd hok (by simp)
      · rw [if_neg h3] at hok
        by_cases h4 : "fecha" ∉
            colNames (filtrar_tipo_cambio (limpiar_dataframe dfTC) m today)
        · rw [if_pos h4] at hok
          exact absurd hok (by simp)
        · rw [if_neg h4] at hok
          by_cases h5 : "producto_id" ∉ colNames (mergeUno dfP dfTC m today)
          · rw [if_pos h5] at hok
            exact absurd hok (by simp)
          · rw [if_neg h5] at hok
            by_cases h6 : "producto_id" ∉ colNames (limpiar_dataframe dfA)
            · rw [if_pos h6] at hok
              exact absurd hok (by simp)
            · rw [if_neg h6] at hok
              cases hc : calcular_precio_local
                  (mergeDos dfP dfTC dfA m today) m "precio_usd"
                  "tipo_cambio" with
              | error e =>
                rw [hc] at hok
                exact absurd hok (by simp)
              | ok dfc =>
                rw [hc] at hok
                injection hok with h7
                exact ⟨dfc, rfl, h7.symm⟩

theorem calcular_cases {df dfc : DataFrame} {m cp ctc : String}
    (hok : calcular_precio_local df m cp ctc = .ok dfc) :
    ((cp ∉ colNames df ∨ ctc ∉ colNames df) ∧ dfc = df) ∨
    (cp ∈ colNames df ∧ ctc ∈ colNames df ∧
      dfc.cols = colsSet (colsSet df.cols "precio_local" .numeric)
        "moneda_local" .text ∧
      ∃ rows2, mapOpt (fun r =>
          (mulCell ((rlookup r cp).getD .vNull)
              ((rlookup r ctc).getD .vNull)).map
            (fun v => rowSet r "precio_local" (roundCell 2 v))) df.rows =
          some rows2 ∧
        dfc.rows = rows2.map (fun r => rowSet r "moneda_local" (.vStr m))) := by
  unfold calcular_precio_local at hok
  by_cases h1 : cp ∉ colNames df
  · rw [if_pos h1] at hok
    injection hok with h2
    exact Or.inl ⟨Or.inl h1, h2.symm⟩
  · rw [if_neg h1] at hok
    by_cases h2 : ctc ∉ colNames df
    · rw [if_pos h2] at hok
      injection hok with h3
      exact Or.inl ⟨Or.inr h2, h3.symm⟩
    · rw [if_neg h2] at hok
      cases hm : mapOpt (fun r =>
          (mulCell ((rlookup r cp).getD .vNull)
              ((rlookup r ctc).getD .vNull)).map
            (fun v => rowSet r "precio_local" (roundCell 2 v))) df.rows with
      | none =>
        rw [hm] at hok
        exact absurd hok (by simp)
      | some rows2 =>
        rw [hm] at hok
        injection hok with h3
        refine Or.inr ⟨not_not.mp h1, not_not.mp h2, ?_, rows2, rfl, ?_⟩
        · rw [← h3]
        · rw [← h3]

theorem calcular_ok_length {df dfc : DataFrame} {m cp ctc : String}
    (hok : calcular_precio_local df m cp ctc = .ok dfc) :
    dfc.rows.length = df.rows.length := by
  rcases calcular_cases hok with ⟨_, rfl⟩ | ⟨_, _, _, rows2, hmap, hrows⟩
  · rfl
  · rw [hrows, List.length_map, mapOpt_length hmap]

theorem setColScalar_length (df : DataFrame) (n : String) (dt : Dtype)
    (v : Value) : (setColScalar df n dt v).rows.length = df.rows.length :=
  List.length_map _ _

theorem reordenar_length (df : DataFrame) :
    (reordenar_columnas df).rows.length = df.rows.length :=
  List.length_map _ _

theorem metadatos_length (df : DataFrame) (ts : String) :
    (metadatos df ts).rows.length = df.rows.length := by
  unfold metadatos
  rw [setColScalar_length, setColScalar_length]

theorem productosConFecha_length (dfP : DataFrame) (today : ℚ) :
    (productosConFecha dfP today).rows.length =
      (limpiar_dataframe dfP).rows.length := by
  unfold productosConFecha
  by_cases h : "fecha" ∈ colNames (limpiar_dataframe dfP)
  · rw [if_pos h]
  · rw [if_neg h, setColScalar_length]

theorem headD_mem {α : Type} {l : List α} (h : l ≠ []) (d : α) :
    l.headD d ∈ l := by
  cases l with
  | nil => exact absurd rfl h
  | cons x xs => exact List.mem_cons_self x xs

theorem mem_colNames_setColScalar {df : DataFrame} {n m : String}
    {dt : Dtype} {v : Value} :
    m ∈ colNames (setColScalar df n dt v) ↔ m = n ∨ m ∈ colNames df :=
  mem_map_fst_colsSet df.cols n m dt

theorem mem_colNames_of_disponibles {df : DataFrame} {n : String}
    (h : n ∈ columnasDisponibles df) : n ∈ colNames df := by
  unfold columnasDisponibles at h
  have := List.mem_filter.mp h
  simpa using this.2

theorem mem_disponibles_of_principales {df : DataFrame} {n : String}
    (hp : n ∈ columnasPrincipales) (hc : n ∈ colNames df) :
    n ∈ columnasDisponibles df := by
  unfold columnasDisponibles
  refine List.mem_filter.mpr ⟨List.mem_append_left _ hp, ?_⟩
  simpa using hc

theorem mem_colNames_metadatos {df : DataFrame} {ts : String} {n : String}
    (h1 : n ≠ "fecha_procesamiento") (h2 : n ≠ "pipeline_version") :
    n ∈ colNames (metadatos df ts) ↔ n ∈ colNames df := by
  unfold metadatos
  rw [mem_colNames_setColScalar, mem_colNames_setColScalar]
  constructor
  · rintro (hc | hc | hc)
    · exact absurd hc h2
    · exact absurd hc h1
    · exact hc
  · intro hc
    exact Or.inr (Or.inr hc)

theorem sufijo_of_not_common {L R : DataFrame} {key suf n : String}
    (h : ¬ (n ≠ key ∧ n ∈ colNames L ∧ n ∈ colNames R)) :
    sufijo L R key suf n = n := by
  unfold sufijo
  rw [if_neg h]

theorem sufijo_empty (L R : DataFrame) (key n : String) :
    sufijo L R key "" n = n := by
  unfold sufijo
  split
  · exact String.append_empty n
  · rfl

theorem limpiar_row_names {df : DataFrame} (hwf : df.WF) :
    ∀ r ∈ (limpiar_dataframe df).rows, r.map Prod.fst = colNames df := by
  intro r hr
  simp only [limpiar_dataframe] at hr
  obtain ⟨r1, hr1, rfl⟩ := List.mem_map.mp hr
  have hr1d : r1 ∈ dedupFirst df.rows := List.mem_of_mem_filter hr1
  have hr1m : r1 ∈ df.rows := mem_dedupFirst.mp hr1d
  rw [List.map_map]
  have hpt : ∀ e ∈ r1, (Prod.fst ∘ fillEntry df.cols) e = e.1 := by
    intro e _
    show (fillEntry df.cols e).1 = e.1
    unfold fillEntry
    cases e.2 with
    | vNull =>
      cases alookup df.cols e.1 with
      | none => rfl
      | some dt => cases dt <;> rfl
    | vNum q => rfl
    | vStr s => rfl
  rw [List.map_congr_left hpt]
  exact hwf r1 hr1m

theorem mergeLeft_mem {L R : DataFrame} {key sufL sufR : String} {row : Row}
    (h : row ∈ (mergeLeft L R key sufL sufR).rows) :
    ∃ l ∈ L.rows,
      ((R.rows.filter (fun rr => rlookup rr key = rlookup l key) = [] ∧
        row = l.map (fun e => (sufijo L R key sufL e.1, e.2)) ++
          (R.cols.filter (fun c => c.1 ≠ key)).map
            (fun c => (sufijo L R key sufR c.1, Value.vNull))) ∨
       (∃ mr ∈ R.rows.filter (fun rr => rlookup rr key = rlookup l key),
        row = l.map (fun e => (sufijo L R key sufL e.1, e.2)) ++
          (mr.filter (fun e => e.1 ≠ key)).map
            (fun e => (sufijo L R key sufR e.1, e.2)))) := by
  simp only [mergeLeft] at h
  obtain ⟨l, hl, hrow⟩ := List.mem_flatMap.mp h
  refine ⟨l, hl, ?_⟩
  by_cases hemp :
      (R.rows.filter (fun rr => rlookup rr key = rlookup l key)).isEmpty
  · rw [if_pos hemp] at hrow
    rcases List.mem_singleton.mp hrow with rfl
    exact Or.inl ⟨List.isEmpty_iff.mp hemp, rfl⟩
  · rw [if_neg hemp] at hrow
    obtain ⟨mr, hmr, rfl⟩ := List.mem_map.mp hrow
    exact Or.inr ⟨mr, hmr, rfl⟩

theorem mem_colNames_mergeLeft_left {L R : DataFrame} {key sufL sufR n :
    String} (hsuf : sufijo L R key sufL n = n) (hn : n ∈ colNames L) :
    n ∈ colNames (mergeLeft L R key sufL sufR) := by
  simp only [mergeLeft, colNames, List.map_append, List.map_map]
  apply List.mem_append_left
  obtain ⟨c, hc, hcn⟩ := List.mem_map.mp hn
  apply List.mem_map.mpr
  exact ⟨c, hc, by simpa [Function.comp, hcn] using hcn ▸ hsuf⟩

theorem mem_colNames_mergeLeft_right {L R : DataFrame} {key sufL sufR n :
    String} (hk : n ≠ key) (hsuf : sufijo L R key sufR n = n)
    (hn : n ∈ colNames R) :
    n ∈ colNames (mergeLeft L R key sufL sufR) := by
  simp only [mergeLeft, colNames, List.map_append, List.map_map]
  apply List.mem_append_right
  obtain ⟨c, hc, hcn⟩ := List.mem_map.mp hn
  apply List.mem_map.mpr
  refine ⟨c, List.mem_filter.mpr ⟨hc, ?_⟩, ?_⟩
  · simp [hcn, hk]
  · simpa [Function.comp, hcn] using hcn ▸ hsuf

/-! ### Claim theorems -/

/-- C7: if either the price column or the exchange-rate column is absent
from the joined table, `calcular_precio_local` returns the table completely
unchanged (no `precio_local` or `moneda_local` column added, no row or
other column modified) and does not raise. -/
theorem C7_derivacion_omitida (df : DataFrame) (m cp ctc : String)
    (h : cp ∉ colNames df ∨ ctc ∉ colNames df) :
    calcular_precio_local df m cp ctc = .ok df := by
  unfold calcular_precio_local
  rcases h with h | h
  · rw [if_pos h]
  · by_cases h1 : cp ∉ colNames df
    · rw [if_pos h1]
    · rw [if_neg h1, if_pos h]

/-- C7 witness: a concrete table without a `tipo_cambio` column passes
through `calcular_precio_local` untouched. -/
theorem C7_derivacion_omitida_witness :
    calcular_precio_local
      { cols := [("precio_usd", .numeric)],
        rows := [[("precio_usd", .vNum 3)]] } "ARS" "precio_usd"
      "tipo_cambio" =
      .ok { cols := [("precio_usd", .numeric)],
            rows := [[("precio_usd", .vNum 3)]] } :=
  C7_derivacion_omitida _ "ARS" "precio_usd" "tipo_cambio"
    (Or.inr (by decide))

/-- C9: for every `dias_historico` less than or equal to zero, each of the
three extractors raises the empty-table validation error even when the feed
responds with valid non-empty data, because zero historical dates are
generated and the replicated table is therefore empty. -/
theorem C9_dias_no_positivos (ratesP? ratesT? ratesA? :
      Option (List (String × ℚ))) (monedaBase : String)
    (jitP jitT jitA : ℤ → String → ℚ) (ratPick : ℤ → String → String)
    (today n : ℤ) (hn : n ≤ 0) :
    extraer_api_productos ratesP? jitP today n =
      .error "Productos está vacío" ∧
    extraer_api_tipos_cambio ratesT? monedaBase jitT today n =
      .error "Tipos de Cambio está vacío" ∧
    extraer_api_datos_adicionales ratesA? jitA ratPick today n =
      .error "Datos Adicionales está vacío" := by
  have hfe := @generar_fechas_nonpos today n hn
  have hp : productosDe ratesP? jitP today n = [] := by
    unfold productosDe
    cases ratesP? with
    | none => rfl
    | some rs => rw [hfe]; rfl
  have ht : tiposDe ratesT? monedaBase jitT today n = [] := by
    unfold tiposDe
    rw [hfe]
    rfl
  have ha : adicionalesDe ratesA? jitA ratPick today n = [] := by
    unfold adicionalesDe
    cases ratesA? with
    | none => rfl
    | some rs => rw [hfe]; rfl
  refine ⟨?_, ?_, ?_⟩
  · rw [extraer_productos_eq, hp]
    rfl
  · rw [extraer_tipos_eq, ht]
    rfl
  · rw [extraer_adicionales_eq, ha]
    rfl

/-- C9 witness: at `dias_historico = 0` with concrete non-empty feeds, all
three extractors fail with their empty-table errors. -/
theorem C9_dias_no_positivos_witness :
    extraer_api_productos (some [("EUR", 2)]) jitUnit 0 0 =
      .error "Productos está vacío" ∧
    extraer_api_tipos_cambio (some [("EUR", 2)]) "USD" jitUnit 0 0 =
      .error "Tipos de Cambio está vacío" ∧
    extraer_api_datos_adicionales (some [("BTC", 3)]) jitUnit ratUnit 0 0 =
      .error "Datos Adicionales está vacío" :=
  C9_dias_no_positivos (some [("EUR", 2)]) (some [("EUR", 2)])
    (some [("BTC", 3)]) "USD" jitUnit jitUnit jitUnit ratUnit 0 0
    (by decide)

/-- C5: the validator fails (with the empty-result error naming the source)
exactly when the table is absent or has zero rows; consequently the product
extractor on a feed returning `{}` (no `rates` key) raises that error,
while with `dias_historico = 1` on a responsive feed with at least one rate
it never returns zero rows. -/
theorem C5_validacion_vacio (df? : Option DataFrame) (nombre : String)
    (rs : List (String × ℚ)) (jit : ℤ → String → ℚ) (today n : ℤ)
    (hrs : rs ≠ []) :
    (validar_dataframe_basico df? nombre =
        .error (nombre ++ " está vacío") ↔
      df? = none ∨ ∃ d, df? = some d ∧ d.rows = []) ∧
    (extraer_api_productos none jit today n =
      .error "Productos está vacío") ∧
    (∃ d, extraer_api_productos (some rs) jit today 1 = .ok d ∧
      d.rows ≠ []) := by
  refine ⟨?_, ?_, ?_⟩
  · constructor
    · intro h
      cases df? with
      | none => exact Or.inl rfl
      | some d =>
        refine Or.inr ⟨d, rfl, ?_⟩
        rw [validar_some] at h
        by_cases hz : d.rows.length = 0
        · exact List.length_eq_zero.mp hz
        · rw [if_neg hz] at h
          exact absurd h (by simp)
    · intro h
      rcases h with rfl | ⟨d, rfl, hd⟩
      · rfl
      · rw [validar_some, if_pos (by rw [hd]; rfl)]
  · rw [extraer_productos_eq]
    rfl
  · have hlen : (productosDe (some rs) jit today 1).length = rs.length := by
      unfold productosDe
      rw [generar_fechas_one]
      simp
    have hne : (productosDe (some rs) jit today 1).length ≠ 0 := by
      rw [hlen]
      intro hc
      exact hrs (List.length_eq_zero.mp hc)
    rw [extraer_productos_eq, if_neg hne]
    refine ⟨_, rfl, ?_⟩
    simp only [ne_eq]
    intro hc
    exact hne (by rw [hc]; rfl)

/-- C5 witness: the validator rejects a concrete zero-row table with the
named error, the product extractor fails on a `{}` feed, and with one
historical day on a one-rate feed it succeeds with a non-empty table. -/
theorem C5_validacion_vacio_witness :
    validar_dataframe_basico (some dfEmpty) "Productos" =
      .error "Productos está vacío" ∧
    extraer_api_productos none jitUnit 0 7 =
      .error "Productos está vacío" ∧
    (∃ d, extraer_api_productos (some [("EUR", 2)]) jitUnit 0 1 = .ok d ∧
      d.rows ≠ []) := by
  have h := C5_validacion_vacio (some dfEmpty) "Productos" [("EUR", 2)]
    jitUnit 0 7 (by decide)
  exact ⟨h.1.mpr (Or.inr ⟨dfEmpty, rfl, rfl⟩), h.2.1, h.2.2⟩

/-- A concrete product table: one product with a price, dated day 0. -/
def productosPrecio : DataFrame :=
  { cols := [("producto_id", .text), ("precio_usd", .numeric),
      ("fecha", .text)],
    rows := [[("producto_id", .vStr "P1"), ("precio_usd", .vNum 10),
      ("fecha", .vNum 0)]] }

/-- A concrete rate table: one ARS rate of 5 on day 0. -/
def tiposARS : DataFrame :=
  { cols := [("fecha", .text), ("moneda_destino", .text),
      ("tipo_cambio", .numeric)],
    rows := [[("fecha", .vNum 0), ("moneda_destino", .vStr "ARS"),
      ("tipo_cambio", .vNum 5)]] }

/-- A concrete supplemental table: a rating for the product. -/
def adicionalesP1 : DataFrame :=
  { cols := [("producto_id", .text), ("rating", .text)],
    rows := [[("producto_id", .vStr "P1"), ("rating", .vStr "A")]] }

/-- C1 counterexample input: one product row dated day 0. -/
def productosC1 : DataFrame :=
  { cols := [("producto_id", .text), ("fecha", .text)],
    rows := [[("producto_id", .vStr "P1"), ("fecha", .vNum 0)]] }

/-- C1 counterexample input: two distinct ARS rate rows on the same day —
not duplicates, so cleaning keeps both. -/
def tiposC1 : DataFrame :=
  { cols := [("fecha", .text), ("moneda_destino", .text),
      ("tipo_cambio", .numeric)],
    rows := [[("fecha", .vNum 0), ("moneda_destino", .vStr "ARS"),
      ("tipo_cambio", .vNum 5)],
      [("fecha", .vNum 0), ("moneda_destino", .vStr "ARS"),
      ("tipo_cambio", .vNum 6)]] }

/-- C1 counterexample: with two rate rows sharing the same date, the left
join duplicates the single product row — the consolidated table has 2 rows
while the cleaned product table has 1, refuting the unconditional
cardinality claim. -/
theorem C1_contraejemplo :
    (consolidar_datos productosC1 tiposC1 adicionalesP1 "ARS" 0
        "t").toOption.map (fun d => d.rows.length) = some 2 ∧
      (limpiar_dataframe productosC1).rows.length = 1 := by
  refine ⟨?_, ?_⟩ <;> decide

/-- C1 (amended): when the filtered rate table has pairwise-distinct `fecha`
keys and the cleaned supplemental table has pairwise-distinct `producto_id`
keys, the consolidated table has exactly as many rows as the cleaned
product table — left joins drop no rows, and with unique right-side keys
they add none either. -/
theorem C1_cardinalidad (dfP dfTC dfA : DataFrame) (m : String) (today : ℚ)
    (ts : String) (out : DataFrame)
    (hR : ((filtrar_tipo_cambio (limpiar_dataframe dfTC) m today).rows.map
      (fun r => rlookup r "fecha")).Nodup)
    (hA : ((limpiar_dataframe dfA).rows.map
      (fun r => rlookup r "producto_id")).Nodup)
    (hok : consolidar_datos dfP dfTC dfA m today ts = .ok out) :
    out.rows.length = (limpiar_dataframe dfP).rows.length := by
  obtain ⟨dfc, hc, rfl⟩ := consolidar_ok hok
  rw [reordenar_length, metadatos_length, calcular_ok_length hc]
  unfold mergeDos
  rw [mergeLeft_length hA]
  unfold mergeUno
  have hR' : ((selectCols
      (filtrar_tipo_cambio (limpiar_dataframe dfTC) m today)
      ["fecha", "tipo_cambio"]).rows.map
        (fun r => rlookup r "fecha")).Nodup := by
    show (((filtrar_tipo_cambio (limpiar_dataframe dfTC) m today).rows.map
      (fun r => selectRow r ["fecha", "tipo_cambio"])).map
        (fun r => rlookup r "fecha")).Nodup
    rw [List.map_map]
    have hpt : ∀ r ∈ (filtrar_tipo_cambio (limpiar_dataframe dfTC) m
        today).rows,
        ((fun r => rlookup r "fecha") ∘
          (fun r => selectRow r ["fecha", "tipo_cambio"])) r =
          rlookup r "fecha" := by
      intro r _
      show rlookup (selectRow r ["fecha", "tipo_cambio"]) "fecha" = _
      rw [selectRow_lookup]
      simp
    rw [List.map_congr_left hpt]
    exact hR
  rw [mergeLeft_length hR', productosConFecha_length]

/-- C1 witness: on concrete one-row inputs with unique join keys the
consolidated table keeps exactly the cleaned product row count. -/
theorem C1_cardinalidad_witness :
    ((consolidar_datos productosPrecio tiposARS adicionalesP1 "ARS" 0
      "t").toOption.getD dfEmpty).rows.length = 1 := by
  have hok : consolidar_datos productosPrecio tiposARS adicionalesP1 "ARS" 0
      "t" = .ok ((consolidar_datos productosPrecio tiposARS adicionalesP1
        "ARS" 0 "t").toOption.getD dfEmpty) := rfl
  exact (C1_cardinalidad productosPrecio tiposARS adicionalesP1 "ARS" 0 "t"
    _ (by decide) (by decide) hok).trans (by decide)

/-- C2 counterexample input: a rate table quoting only EUR, dated day 1. -/
def tiposEUR : DataFrame :=
  { cols := [("fecha", .text), ("moneda_destino", .text),
      ("tipo_cambio", .numeric)],
    rows := [[("fecha", .vNum 1), ("moneda_destino", .vStr "EUR"),
      ("tipo_cambio", .vNum 3)]] }

/-- C2 counterexample: requesting currency XYZ (absent from the rate table)
on a product row dated day 0 while the run date is day 1: the fallback rate
row carries only the run date, so the consolidated row's `tipo_cambio` is
missing (NaN), not `1.0` — refuting "every `tipo_cambio` equals 1.0". -/
theorem C2_contraejemplo :
    (consolidar_datos productosC1 tiposEUR adicionalesP1 "XYZ" 1
        "t").toOption.bind
        (fun d => d.rows.head?.bind (fun r => rlookup r "tipo_cambio")) =
      some Value.vNull ∧
    (consolidar_datos productosC1 tiposEUR adicionalesP1 "XYZ" 1
        "t").toOption.map (fun d => d.rows.length) = some 1 := by
  refine ⟨?_, ?_⟩ <;> decide

/-- C2 (amended): when no rate row matches the requested currency, the run
does substitute the 1.0 fallback instead of raising, but the fallback row
carries only the run date: consolidated rows dated otherwise get a missing
`tipo_cambio`. In particular, for a well-formed product table with no
`fecha` column (every row is then stamped with the run date) and no
`tipo_cambio` column of its own, every consolidated `tipo_cambio` equals
`1.0`. -/
theorem C2_moneda_fallback (dfP dfTC dfA : DataFrame) (m : String)
    (today : ℚ) (ts : String) (out : DataFrame)
    (hwf : dfP.WF)
    (hfe : "fecha" ∉ colNames dfP)
    (htc : "tipo_cambio" ∉ colNames dfP)
    (hnm : (limpiar_dataframe dfTC).rows.filter
      (fun r => rlookup r "moneda_destino" = some (.vStr m)) = [])
    (hok : consolidar_datos dfP dfTC dfA m today ts = .ok out) :
    ∀ row ∈ out.rows, rlookup row "tipo_cambio" = some (.vNum 1) := by
  obtain ⟨dfc, hc, rfl⟩ := consolidar_ok hok
  have htcl : filtrar_tipo_cambio (limpiar_dataframe dfTC) m today =
      fallbackTipoCambio m today := by
    simp only [filtrar_tipo_cambio, hnm]
    rfl
  have hfe' : "fecha" ∉ colNames (limpiar_dataframe dfP) := hfe
  have hpcf : productosConFecha dfP today =
      setColScalar (limpiar_dataframe dfP) "fecha" .text (.vNum today) := by
    simp only [productosConFecha]
    rw [if_neg hfe']
  have hright : selectCols (fallbackTipoCambio m today)
      ["fecha", "tipo_cambio"] =
      { cols := [("fecha", Dtype.text), ("tipo_cambio", Dtype.numeric)],
        rows := [[("fecha", Value.vNum today),
          ("tipo_cambio", Value.vNum 1)]] } := rfl
  have htcL : "tipo_cambio" ∉ colNames (productosConFecha dfP today) := by
    rw [hpcf]
    intro hmem
    rcases mem_colNames_setColScalar.mp hmem with hc1 | hc1
    · exact absurd hc1 (by decide)
    · exact htc hc1
  have hsufR : ∀ sufR : String, sufijo (productosConFecha dfP today)
      { cols := [("fecha", Dtype.text), ("tipo_cambio", Dtype.numeric)],
        rows := [[("fecha", Value.vNum today),
          ("tipo_cambio", Value.vNum 1)]] } "fecha" sufR "tipo_cambio" =
      "tipo_cambio" := by
    intro sufR
    apply sufijo_of_not_common
    rintro ⟨_, h2, _⟩
    exact htcL h2
  have hA : ∀ row1 ∈ (mergeUno dfP dfTC m today).rows,
      rlookup row1 "tipo_cambio" = some (.vNum 1) := by
    intro row1 hrow1
    unfold mergeUno at hrow1
    rw [htcl, hright] at hrow1
    obtain ⟨l, hl, hcase⟩ := mergeLeft_mem hrow1
    rw [hpcf] at hl
    simp only [setColScalar, setColWith] at hl
    obtain ⟨r0, hr0, rfl⟩ := List.mem_map.mp hl
    have hr0names : r0.map Prod.fst = colNames dfP :=
      limpiar_row_names hwf r0 hr0
    have hlf : rlookup (rowSet r0 "fecha" (.vNum today)) "fecha" =
        some (.vNum today) := rowSet_lookup_self _ _ _
    have hfil : ([[("fecha", Value.vNum today),
        ("tipo_cambio", Value.vNum 1)]] : List Row).filter
        (fun rr => rlookup rr "fecha" =
          rlookup (rowSet r0 "fecha" (.vNum today)) "fecha") =
        [[("fecha", Value.vNum today), ("tipo_cambio", Value.vNum 1)]] := by
      rw [hlf]
      simp [rlookup, alookup]
    have hlnames : ∀ e ∈ rowSet r0 "fecha" (.vNum today),
        e.1 = "fecha" ∨ e.1 ∈ colNames dfP := by
      intro e he
      unfold rowSet at he
      have hnofe : ¬ ((r0.any (fun e => e.1 = "fecha")) = true) := by
        rw [any_fst_iff]
        rintro ⟨e2, he2, hen2⟩
        exact hfe (hr0names ▸ (hen2 ▸ List.mem_map_of_mem Prod.fst he2))
      rw [if_neg hnofe] at he
      rcases List.mem_append.mp he with hm | hm
      · exact Or.inr (hr0names ▸ List.mem_map_of_mem Prod.fst hm)
      · rcases List.mem_singleton.mp hm with rfl
        exact Or.inl rfl
    have hlPart : rlookup ((rowSet r0 "fecha" (.vNum today)).map
        (fun e => (sufijo (productosConFecha dfP today)
          { cols := [("fecha", Dtype.text), ("tipo_cambio", Dtype.numeric)],
            rows := [[("fecha", Value.vNum today),
              ("tipo_cambio", Value.vNum 1)]] } "fecha" "_x" e.1, e.2)))
        "tipo_cambio" = none := by
      rw [rlookup, alookup_eq_none]
      intro e2 he2
      obtain ⟨e, he, rfl⟩ := List.mem_map.mp he2
      show sufijo _ _ _ _ e.1 ≠ "tipo_cambio"
      have hnotc : e.1 ≠ "tipo_cambio" := by
        rcases hlnames e he with h1 | h1
        · rw [h1]; decide
        · intro hcon
          exact htc (hcon ▸ h1)
      rw [sufijo_of_not_common]
      · exact hnotc
      · rintro ⟨h1, h2, h3⟩
        have h4 : e.1 = "fecha" ∨ e.1 = "tipo_cambio" := by
          simpa [colNames] using h3
        rcases h4 with h4 | h4
        · exact h1 h4
        · exact hnotc h4
    rcases hcase with ⟨hemp, _⟩ | ⟨mr, hmr, rfl⟩
    · rw [hfil] at hemp
      exact absurd hemp (by simp)
    · rw [hfil] at hmr
      rcases List.mem_singleton.mp hmr with rfl
      rw [rlookup, alookup_append]
      rw [rlookup] at hlPart
      rw [hlPart]
      show Option.or none _ = _
      rw [Option.none_or]
      show alookup [(sufijo _ _ _ _ "tipo_cambio", Value.vNum 1)]
        "tipo_cambio" = _
      rw [hsufR]
      rfl
  have hB : ∀ row2 ∈ (mergeDos dfP dfTC dfA m today).rows,
      rlookup row2 "tipo_cambio" = some (.vNum 1) := by
    intro row2 hrow2
    unfold mergeDos at hrow2
    obtain ⟨l2, hl2, hcase⟩ := mergeLeft_mem hrow2
    have hl2tc : rlookup l2 "tipo_cambio" = some (.vNum 1) := hA l2 hl2
    have hlp : l2.map (fun e => (sufijo (mergeUno dfP dfTC m today)
        (limpiar_dataframe dfA) "producto_id" "" e.1, e.2)) = l2 := by
      apply map_eq_self_of_mem
      intro e _
      rw [sufijo_empty]
    rcases hcase with ⟨_, rfl⟩ | ⟨mr, _, rfl⟩ <;>
    · rw [hlp, rlookup, alookup_append]
      rw [rlookup] at hl2tc
      rw [hl2tc]
      rfl
  have htc_m2 : "tipo_cambio" ∈ colNames (mergeDos dfP dfTC dfA m today) := by
    unfold mergeDos
    apply mem_colNames_mergeLeft_left (sufijo_empty _ _ _ _)
    unfold mergeUno
    rw [htcl, hright]
    exact mem_colNames_mergeLeft_right (by decide) (hsufR "_y")
      (by simp [colNames])
  intro row hrow
  simp only [reordenar_columnas, selectCols] at hrow
  obtain ⟨r0m, hr0m, rfl⟩ := List.mem_map.mp hrow
  simp only [metadatos, setColScalar, setColWith] at hr0m
  obtain ⟨r1a, hr1a, rfl⟩ := List.mem_map.mp hr0m
  obtain ⟨r1, hr1, rfl⟩ := List.mem_map.mp hr1a
  rcases calcular_cases hc with ⟨hor, rfl⟩ | hmain
  · have hdisp : "tipo_cambio" ∈ columnasDisponibles
        (metadatos (mergeDos dfP dfTC dfA m today) ts) :=
      mem_disponibles_of_principales (by decide)
        ((mem_colNames_metadatos (by decide) (by decide)).mpr htc_m2)
    rw [selectRow_lookup, if_pos hdisp,
      rowSet_lookup_ne _ _ _ _ (by decide),
      rowSet_lookup_ne _ _ _ _ (by decide)]
    exact hB r1 hr1
  · obtain ⟨hcp, hctc2, hcols, rows2, hmap2, hrows2⟩ := hmain
    have htc_dfc : "tipo_cambio" ∈ colNames dfc := by
      show "tipo_cambio" ∈ dfc.cols.map Prod.fst
      rw [hcols, mem_map_fst_colsSet]
      refine Or.inr ?_
      rw [mem_map_fst_colsSet]
      exact Or.inr htc_m2
    have hdisp : "tipo_cambio" ∈ columnasDisponibles (metadatos dfc ts) :=
      mem_disponibles_of_principales (by decide)
        ((mem_colNames_metadatos (by decide) (by decide)).mpr htc_dfc)
    rw [selectRow_lookup, if_pos hdisp,
      rowSet_lookup_ne _ _ _ _ (by decide),
      rowSet_lookup_ne _ _ _ _ (by decide)]
    rw [hrows2] at hr1
    obtain ⟨r2, hr2, rfl⟩ := List.mem_map.mp hr1
    rw [rowSet_lookup_ne _ _ _ _ (by decide)]
    obtain ⟨r3, hr3, hf3⟩ := mapOpt_mem hmap2 r2 hr2
    rw [Option.map_eq_some'] at hf3
    obtain ⟨v, _, rfl⟩ := hf3
    rw [rowSet_lookup_ne _ _ _ _ (by decide)]
    exact hB r3 hr3

/-- C2 witness: with a product table lacking a `fecha` column and a rate
table with no XYZ rate, the consolidated row gets the fallback rate 1.0. -/
theorem C2_moneda_fallback_witness :
    rlookup ((((consolidar_datos
          { cols := [("producto_id", .text)],
            rows := [[("producto_id", .vStr "P1")]] }
          tiposEUR adicionalesP1 "XYZ" 1 "t").toOption.getD
        dfEmpty).rows).headD []) "tipo_cambio" = some (.vNum 1) := by
  have hok : consolidar_datos
      { cols := [("producto_id", .text)],
        rows := [[("producto_id", .vStr "P1")]] }
      tiposEUR adicionalesP1 "XYZ" 1 "t" =
      .ok ((consolidar_datos
        { cols := [("producto_id", .text)],
          rows := [[("producto_id", .vStr "P1")]] }
        tiposEUR adicionalesP1 "XYZ" 1 "t").toOption.getD dfEmpty) := rfl
  have hne : (((consolidar_datos
      { cols := [("producto_id", .text)],
        rows := [[("producto_id", .vStr "P1")]] }
      tiposEUR adicionalesP1 "XYZ" 1 "t").toOption.getD
        dfEmpty).rows) ≠ [] := by decide
  exact C2_moneda_fallback _ tiposEUR adicionalesP1 "XYZ" 1 "t" _
    (by unfold DataFrame.WF; decide) (by decide) (by decide) (by decide)
    hok _ (headD_mem hne [])

/-- C3: in every consolidated row where both the `precio_usd` and
`tipo_cambio` values are present, `precio_local` equals
`round(precio_usd * tipo_cambio, 2)` exactly, and `moneda_local` equals the
requested local-currency code. -/
theorem C3_precio_derivado (dfP dfTC dfA : DataFrame) (m : String)
    (today : ℚ) (ts : String) (out : DataFrame) (row : Row) (p r : ℚ)
    (hok : consolidar_datos dfP dfTC dfA m today ts = .ok out)
    (hrow : row ∈ out.rows)
    (hp : rlookup row "precio_usd" = some (.vNum p))
    (hr : rlookup row "tipo_cambio" = some (.vNum r)) :
    rlookup row "precio_local" = some (.vNum (round_to 2 (p * r))) ∧
    rlookup row "moneda_local" = some (.vStr m) := by
  obtain ⟨dfc, hc, rfl⟩ := consolidar_ok hok
  simp only [reordenar_columnas, selectCols] at hrow
  obtain ⟨r0, hr0, rfl⟩ := List.mem_map.mp hrow
  rw [selectRow_lookup] at hp hr
  by_cases hpd : "precio_usd" ∈ columnasDisponibles (metadatos dfc ts)
  swap
  · rw [if_neg hpd] at hp
    exact absurd hp (by simp)
  by_cases htd : "tipo_cambio" ∈ columnasDisponibles (metadatos dfc ts)
  swap
  · rw [if_neg htd] at hr
    exact absurd hr (by simp)
  rw [if_pos hpd] at hp
  rw [if_pos htd] at hr
  have hpuc : "precio_usd" ∈ colNames dfc :=
    (mem_colNames_metadatos (by decide) (by decide)).mp
      (mem_colNames_of_disponibles hpd)
  have htcc : "tipo_cambio" ∈ colNames dfc :=
    (mem_colNames_metadatos (by decide) (by decide)).mp
      (mem_colNames_of_disponibles htd)
  rcases calcular_cases hc with ⟨hor, rfl⟩ | hmain
  · rcases hor with hm | hm
    · exact absurd hpuc hm
    · exact absurd htcc hm
  obtain ⟨hcp, hctc, hcols, rows2, hmap2, hrows2⟩ := hmain
  have hplc : "precio_local" ∈ colNames dfc := by
    show "precio_local" ∈ dfc.cols.map Prod.fst
    rw [hcols, mem_map_fst_colsSet]
    refine Or.inr ?_
    rw [mem_map_fst_colsSet]
    exact Or.inl rfl
  have hmlc : "moneda_local" ∈ colNames dfc := by
    show "moneda_local" ∈ dfc.cols.map Prod.fst
    rw [hcols, mem_map_fst_colsSet]
    exact Or.inl rfl
  have hpld : "precio_local" ∈ columnasDisponibles (metadatos dfc ts) :=
    mem_disponibles_of_principales (by decide)
      ((mem_colNames_metadatos (by decide) (by decide)).mpr hplc)
  have hmld : "moneda_local" ∈ columnasDisponibles (metadatos dfc ts) :=
    mem_disponibles_of_principales (by decide)
      ((mem_colNames_metadatos (by decide) (by decide)).mpr hmlc)
  simp only [metadatos, setColScalar, setColWith] at hr0
  obtain ⟨r1a, hr1a, rfl⟩ := List.mem_map.mp hr0
  obtain ⟨r1, hr1, rfl⟩ := List.mem_map.mp hr1a
  rw [rowSet_lookup_ne _ _ _ _ (by decide),
    rowSet_lookup_ne _ _ _ _ (by decide)] at hp
  rw [rowSet_lookup_ne _ _ _ _ (by decide),
    rowSet_lookup_ne _ _ _ _ (by decide)] at hr
  rw [hrows2] at hr1
  obtain ⟨r2, hr2, rfl⟩ := List.mem_map.mp hr1
  rw [rowSet_lookup_ne _ _ _ _ (by decide)] at hp
  rw [rowSet_lookup_ne _ _ _ _ (by decide)] at hr
  obtain ⟨r3, hr3, hf3⟩ := mapOpt_mem hmap2 r2 hr2
  rw [Option.map_eq_some'] at hf3
  obtain ⟨v, hmulv, hr2eq⟩ := hf3
  rw [← hr2eq] at hp hr ⊢
  rw [rowSet_lookup_ne _ _ _ _ (by decide)] at hp
  rw [rowSet_lookup_ne _ _ _ _ (by decide)] at hr
  rw [hp, hr] at hmulv
  simp only [Option.getD_some] at hmulv
  simp only [mulCell] at hmulv
  injection hmulv with hveq
  constructor
  · rw [selectRow_lookup, if_pos hpld,
      rowSet_lookup_ne _ _ _ _ (by decide),
      rowSet_lookup_ne _ _ _ _ (by decide),
      rowSet_lookup_ne _ _ _ _ (by decide),
      rowSet_lookup_self, ← hveq]
    rfl
  · rw [selectRow_lookup, if_pos hmld,
      rowSet_lookup_ne _ _ _ _ (by decide),
      rowSet_lookup_ne _ _ _ _ (by decide),
      rowSet_lookup_self]

/-- C3 witness: on concrete inputs (price 10, rate 5) the consolidated row
carries `precio_local = round(10 * 5, 2)` and `moneda_local = "ARS"`. -/
theorem C3_precio_derivado_witness :
    rlookup ((((consolidar_datos productosPrecio tiposARS adicionalesP1
          "ARS" 0 "t").toOption.getD dfEmpty).rows).headD [])
        "precio_local" = some (.vNum (round_to 2 (10 * 5))) ∧
      rlookup ((((consolidar_datos productosPrecio tiposARS adicionalesP1
          "ARS" 0 "t").toOption.getD dfEmpty).rows).headD [])
        "moneda_local" = some (.vStr "ARS") := by
  have hok : consolidar_datos productosPrecio tiposARS adicionalesP1 "ARS" 0
      "t" = .ok ((consolidar_datos productosPrecio tiposARS adicionalesP1
        "ARS" 0 "t").toOption.getD dfEmpty) := rfl
  have hne : (((consolidar_datos productosPrecio tiposARS adicionalesP1
      "ARS" 0 "t").toOption.getD dfEmpty).rows) ≠ [] := by decide
  exact C3_precio_derivado productosPrecio tiposARS adicionalesP1 "ARS" 0
    "t" _ _ 10 5 hok (headD_mem hne []) (by decide) (by decide)

/-- C6: for every positive `n`, a successful product extraction with
`dias_historico = n` on a feed with at least one rate yields a table whose
`fecha` column has exactly `n` distinct values — namely the invocation's
wall-clock date and the `n - 1` preceding calendar days — with one row per
fetched entity per date (per date, the `producto_id` sequence is exactly
the feed's entity list). -/
theorem C6_cobertura_fechas (rs : List (String × ℚ)) (jit : ℤ → String → ℚ)
    (today n : ℤ) (df : DataFrame) (hn : 0 < n) (hrs : rs ≠ [])
    (hok : extraer_api_productos (some rs) jit today n = .ok df) :
    ((dedupFirst (df.rows.map (fun r => rlookup r "fecha"))).length : ℤ)
        = n ∧
    (∀ v, v ∈ df.rows.map (fun r => rlookup r "fecha") ↔
      ∃ i : ℕ, (i : ℤ) < n ∧
        v = some (.vNum ((today - (i : ℤ) : ℤ) : ℚ))) ∧
    (∀ f ∈ generar_fechas_historicas today n,
      (df.rows.filter
          (fun r => rlookup r "fecha" = some (.vNum (f : ℚ)))).map
          (fun r => rlookup r "producto_id") =
        rs.map (fun p => some (.vStr ("CURR_" ++ p.1)))) := by
  have hrows := extraer_productos_rows hok
  have hklen : 0 < rs.length := List.length_pos.mpr hrs
  have hmap : df.rows.map (fun r => rlookup r "fecha") =
      (generar_fechas_historicas today n).flatMap
        (fun (f : ℤ) => List.replicate rs.length
          (some (Value.vNum (f : ℚ)))) := by
    rw [hrows]
    unfold productosDe
    rw [List.map_flatMap]
    congr 1
    funext f
    rw [List.map_map]
    have hpt : ∀ p ∈ rs, ((fun r => rlookup r "fecha") ∘
        fun p => prodRow (jit f p.1) f p) p =
          some (Value.vNum (f : ℚ)) :=
      fun p _ => rlookup_prodRow_fecha (jit f p.1) f p
    rw [List.map_congr_left hpt, List.map_const']
  have hinj : ∀ a b : ℤ,
      some (Value.vNum (a : ℚ)) = some (Value.vNum (b : ℚ)) → a = b := by
    intro a b h
    injection h with h1
    injection h1 with h2
    exact_mod_cast h2
  have hmg : ((generar_fechas_historicas today n).map
      (fun (f : ℤ) => some (Value.vNum (f : ℚ)))).Nodup := by
    refine List.Nodup.map ?_ (generar_fechas_nodup today n)
    intro a b h
    exact hinj a b h
  refine ⟨?_, ?_, ?_⟩
  · rw [hmap, dedupFirst_flatMap_replicate _ rs.length hklen _ hmg,
      List.length_map, generar_fechas_length]
    omega
  · intro v
    rw [hmap]
    simp only [List.mem_flatMap, List.mem_replicate]
    constructor
    · rintro ⟨f, hf, _, rfl⟩
      obtain ⟨i, hi, rfl⟩ := generar_fechas_mem.mp hf
      exact ⟨i, by omega, rfl⟩
    · rintro ⟨i, hi, rfl⟩
      refine ⟨today - (i : ℤ), ?_, ?_, rfl⟩
      · exact generar_fechas_mem.mpr ⟨i, by omega, rfl⟩
      · omega
  · intro f hf
    rw [hrows]
    unfold productosDe
    rw [List.filter_flatMap]
    have hinner : (fun f' => (List.map
          (fun p => prodRow (jit f' p.1) f' p) rs).filter
        (fun r => rlookup r "fecha" = some (.vNum (f : ℚ)))) =
        (fun f' => if f' = f then
          List.map (fun p => prodRow (jit f' p.1) f' p) rs else []) := by
      funext f'
      by_cases hff : f' = f
      · subst hff
        rw [if_pos rfl]
        apply List.filter_eq_self.mpr
        intro r hr
        obtain ⟨p, _, rfl⟩ := List.mem_map.mp hr
        rw [decide_eq_true_eq]
        exact rlookup_prodRow_fecha (jit f' p.1) f' p
      · rw [if_neg hff]
        rw [List.filter_eq_nil_iff]
        intro r hr
        obtain ⟨p, _, rfl⟩ := List.mem_map.mp hr
        rw [decide_eq_true_eq, rlookup_prodRow_fecha]
        intro hc
        exact hff (hinj f' f hc)
    rw [hinner,
      flatMap_ite_eq (generar_fechas_nodup today n) hf
        (fun f' => List.map (fun p => prodRow (jit f' p.1) f' p) rs),
      List.map_map]
    exact List.map_congr_left
      (fun p _ => rlookup_prodRow_id (jit f p.1) f p)

/-- C6 witness: a concrete two-day extraction over a one-entity feed has
exactly 2 distinct dates, today's day 10 and the preceding day 9. -/
theorem C6_cobertura_fechas_witness :
    ((dedupFirst ((((extraer_api_productos (some [("EUR", 2)]) jitUnit 10
          2).toOption.getD dfEmpty).rows).map
        (fun r => rlookup r "fecha"))).length : ℤ) = 2 := by
  have hok : extraer_api_productos (some [("EUR", 2)]) jitUnit 10 2 =
      .ok ((extraer_api_productos (some [("EUR", 2)]) jitUnit 10
        2).toOption.getD dfEmpty) := rfl
  exact (C6_cobertura_fechas [("EUR", 2)] jitUnit 10 2 _ (by decide)
    (by decide) hok).1

/-- C10: in the product extractor, the inversion of each fetched rate is
guarded (`precio_base` is `0` for every rate less than or equal to zero, so
the division never has a zero divisor), and — the jitter draws lying in the
`uniform(0.95, 1.05)` range — every produced `precio_usd` value is greater
than or equal to zero. -/
theorem C10_precio_no_negativo (rates? : Option (List (String × ℚ)))
    (jit : ℤ → String → ℚ) (today n : ℤ) (df : DataFrame)
    (hj : ∀ f c, (19 : ℚ) / 20 ≤ jit f c ∧ jit f c ≤ (21 : ℚ) / 20)
    (hok : extraer_api_productos rates? jit today n = .ok df) :
    (∀ tasa : ℚ, tasa ≤ 0 → precio_base tasa = 0) ∧
    (∀ row ∈ df.rows, ∀ q, rlookup row "precio_usd" = some (.vNum q) →
      0 ≤ q) := by
  refine ⟨fun tasa ht => precio_base_of_nonpos ht, ?_⟩
  have hrows : df.rows = productosDe rates? jit today n := by
    rw [extraer_productos_eq] at hok
    by_cases hz : (productosDe rates? jit today n).length = 0
    · rw [if_pos hz] at hok
      exact absurd hok (by simp)
    · rw [if_neg hz] at hok
      have := congrArg Except.toOption hok
      simp only [Except.toOption] at this
      injection this with h2
      rw [← h2]
  intro row hrow q hq
  rw [hrows] at hrow
  unfold productosDe at hrow
  cases rates? with
  | none => simp at hrow
  | some rs =>
    rw [List.mem_flatMap] at hrow
    obtain ⟨f, hf, hmem⟩ := hrow
    rw [List.mem_map] at hmem
    obtain ⟨p, hp, hrfl⟩ := hmem
    subst hrfl
    have hl : rlookup (prodRow (jit f p.1) f p) "precio_usd" =
        some (.vNum (round_to 4 (precio_base p.2 * jit f p.1))) := by
      simp [prodRow, rlookup, alookup]
    rw [hl] at hq
    injection hq with hq2
    injection hq2 with hq3
    rw [← hq3]
    apply round_to_nonneg
    apply mul_nonneg (precio_base_nonneg p.2)
    have := (hj f p.1).1
    linarith

/-- On a table whose rows are non-empty and free of missing values,
cleaning reduces to duplicate removal: the drop-all-null and fill steps do
nothing. -/
theorem limpiar_of_no_nulls {T : DataFrame}
    (h : ∀ r ∈ T.rows, r ≠ [] ∧ ∀ e ∈ r, e.2 ≠ Value.vNull) :
    limpiar_dataframe T = { cols := T.cols, rows := dedupFirst T.rows } := by
  simp only [limpiar_dataframe]
  have hmem : ∀ r ∈ dedupFirst T.rows,
      r ≠ [] ∧ ∀ e ∈ r, e.2 ≠ Value.vNull :=
    fun r hr => h r (mem_dedupFirst.mp hr)
  have hfil : (dedupFirst T.rows).filter
      (fun r => ¬ (r.all (fun e => e.2 = Value.vNull))) =
        dedupFirst T.rows := by
    apply List.filter_eq_self.mpr
    intro r hr
    obtain ⟨hne, hnn⟩ := hmem r hr
    simp only [decide_eq_true_eq]
    intro hall
    rw [List.all_eq_true] at hall
    cases r with
    | nil => exact hne rfl
    | cons e r0 =>
      have := hall e (List.mem_cons_self e r0)
      simp only [decide_eq_true_eq] at this
      exact hnn e (List.mem_cons_self e r0) this
  rw [hfil]
  have hmap : (dedupFirst T.rows).map
      (fun r => r.map (fillEntry T.cols)) = dedupFirst T.rows := by
    apply map_eq_self_of_mem
    intro r hr
    apply map_eq_self_of_mem
    intro e he
    unfold fillEntry
    cases hv : e.2 with
    | vNull => exact absurd hv ((hmem r hr).2 e he)
    | vNum q => rfl
    | vStr s => rfl
  rw [hmap]

/-- C4 counterexample: on a two-row table where filling a missing numeric
value makes the rows identical, a second cleaning removes the new
duplicate, so `limpiar_dataframe` is not idempotent. -/
def tablaRellenoDuplica : DataFrame :=
  { cols := [("a", .numeric), ("b", .numeric)],
    rows := [[("a", .vNum 1), ("b", .vNull)],
             [("a", .vNum 1), ("b", .vNum 0)]] }

/-- C4 counterexample: cleaning `tablaRellenoDuplica` twice removes a row
that a single cleaning keeps (2 rows versus 1), refuting
`clean(clean(T)) = clean(T)` for arbitrary `T`. -/
theorem C4_contraejemplo :
    limpiar_dataframe (limpiar_dataframe tablaRellenoDuplica) ≠
        limpiar_dataframe tablaRellenoDuplica ∧
      (limpiar_dataframe tablaRellenoDuplica).rows.length = 2 ∧
      (limpiar_dataframe
        (limpiar_dataframe tablaRellenoDuplica)).rows.length = 1 := by
  refine ⟨?_, ?_, ?_⟩ <;> decide

/-- C4 (amended): cleaning is idempotent on every table whose rows are
non-empty and contain no missing values — in general a second cleaning can
differ, because the fill step may create new duplicate rows. -/
theorem C4_limpiar_idempotente (T : DataFrame)
    (h : ∀ r ∈ T.rows, r ≠ [] ∧ ∀ e ∈ r, e.2 ≠ Value.vNull) :
    limpiar_dataframe (limpiar_dataframe T) = limpiar_dataframe T := by
  rw [limpiar_of_no_nulls h]
  have h2 : ∀ r ∈ (dedupFirst T.rows),
      r ≠ [] ∧ ∀ e ∈ r, e.2 ≠ Value.vNull :=
    fun r hr => h r (mem_dedupFirst.mp hr)
  rw [@limpiar_of_no_nulls
    { cols := T.cols, rows := dedupFirst T.rows } h2]
  simp [dedupFirst_idem]

/-- C4 witness: idempotence holds on a concrete null-free table with a
duplicated row. -/
theorem C4_limpiar_idempotente_witness :
    limpiar_dataframe (limpiar_dataframe
      { cols := [("a", .numeric)],
        rows := [[("a", .vNum 1)], [("a", .vNum 1)], [("a", .vNum 2)]] }) =
    limpiar_dataframe
      { cols := [("a", .numeric)],
        rows := [[("a", .vNum 1)], [("a", .vNum 1)], [("a", .vNum 2)]] } :=
  C4_limpiar_idempotente _ (by decide)

/-- C8 counterexample: a table that has a `precio_usd` column but zero rows
still gets the `precio_usd` statistics block in its summary (with NaN
statistics), refuting the claim that the block is included only if the
column is non-empty. -/
def tablaVaciaConPrecio : DataFrame :=
  { cols := [("precio_usd", .numeric)], rows := [] }

/-- C8 counterexample: summarizing the empty-but-typed table yields a
summary whose `precio_usd` block is present even though the table has zero
rows. -/
theorem C8_contraejemplo :
    (generar_resumen_estadistico tablaVaciaConPrecio "ts").toOption.map
        (fun r => r.precio_usd?.isSome) = some true ∧
      tablaVaciaConPrecio.rows.length = 0 := by
  refine ⟨?_, ?_⟩ <;> decide

/-- C8 (amended): in every summary the summarizer returns, the
`por_categoria` mapping is present iff the input has a `categoria` column
(omitted entirely when absent), and the `precio_usd` / `precio_local`
statistics blocks are present iff those columns exist — regardless of
whether they are empty: an empty or all-null column yields a block of NaN
statistics. -/
theorem C8_resumen_bloques (df : DataFrame) (ts : String) (r : Resumen)
    (hok : generar_resumen_estadistico df ts = .ok r) :
    (r.por_categoria?.isSome ↔ "categoria" ∈ colNames df) ∧
    (r.precio_usd?.isSome ↔ "precio_usd" ∈ colNames df) ∧
    (r.precio_local?.isSome ↔ "precio_local" ∈ colNames df) := by
  unfold generar_resumen_estadistico at hok
  by_cases h1 : "precio_usd" ∈ colNames df <;>
    by_cases h2 : "precio_local" ∈ colNames df <;>
      by_cases h3 : "categoria" ∈ colNames df <;>
        simp only [h1, h2, h3, if_true, if_false, if_pos, if_neg,
          not_false_iff, not_true] at hok ⊢
  all_goals
    first
    | (cases hs1 : colStats df "precio_usd" with
       | error e =>
         rw [hs1] at hok
         first
         | exact absurd hok (by simp)
         | (cases hs2 : colStats df "precio_local" with
            | error e2 => rw [hs2] at hok; exact absurd hok (by simp)
            | ok s2 =>
              rw [hs2] at hok
              injection hok with hr
              subst hr
              simp [h1, h2, h3])
       | ok s1 =>
         rw [hs1] at hok
         first
         | (injection hok with hr
            subst hr
            simp [h1, h2, h3])
         | (cases hs2 : colStats df "precio_local" with
            | error e2 => rw [hs2] at hok; exact absurd hok (by simp)
            | ok s2 =>
              rw [hs2] at hok
              injection hok with hr
              subst hr
              simp [h1, h2, h3]))
    | (cases hs2 : colStats df "precio_local" with
       | error e2 => rw [hs2] at hok; exact absurd hok (by simp)
       | ok s2 =>
         rw [hs2] at hok
         injection hok with hr
         subst hr
         simp [h1, h2, h3])
    | (injection hok with hr
       subst hr
       simp [h1, h2, h3])

/-- C8 witness: on a concrete table with a `categoria` column and no price
columns, the summary has the category mapping and no statistics blocks. -/
theorem C8_resumen_bloques_witness :
    ((generar_resumen_estadistico
        { cols := [("categoria", .text)],
          rows := [[("categoria", .vStr "Forex")]] } "ts").toOption.getD
      { total_registros := 0, total_columnas := 0, columnas := [],
        fecha_procesamiento := "", precio_usd? := none,
        precio_local? := none, por_categoria? := none }).por_categoria?.isSome
      = true := by
  have hok : generar_resumen_estadistico
      { cols := [("categoria", .text)],
        rows := [[("categoria", .vStr "Forex")]] } "ts" =
      .ok ((generar_resumen_estadistico
        { cols := [("categoria", .text)],
          rows := [[("categoria", .vStr "Forex")]] } "ts").toOption.getD
          { total_registros := 0, total_columnas := 0, columnas := [],
            fecha_procesamiento := "", precio_usd? := none,
            precio_local? := none, por_categoria? := none }) := rfl
  have h := C8_resumen_bloques _ "ts" _ hok
  exact h.1.mpr (by decide)

/-- C10 witness: a concrete extraction with an in-range jitter stream and a
negative-rate feed entry yields only non-negative `precio_usd` values. -/
theorem C10_precio_no_negativo_witness :
    (∀ tasa : ℚ, tasa ≤ 0 → precio_base tasa = 0) ∧
    (∀ row ∈ (((extraer_api_productos (some [("EUR", 2), ("BAD", -3)])
          jitUnit 0 1).toOption).getD dfEmpty).rows,
      ∀ q, rlookup row "precio_usd" = some (.vNum q) → 0 ≤ q) := by
  have hok : extraer_api_productos (some [("EUR", 2), ("BAD", -3)])
      jitUnit 0 1 =
        .ok (((extraer_api_productos (some [("EUR", 2), ("BAD", -3)])
          jitUnit 0 1).toOption).getD dfEmpty) := rfl
  exact C10_precio_no_negativo (some [("EUR", 2), ("BAD", -3)]) jitUnit 0 1 _
    (fun f c => by constructor <;> norm_num [jitUnit]) hok

end ETL
